import Mathlib

/-! # Trojan proxy-provider translator (`proxyprovider/proxy/trojan.go`)

A shallow embedding of `ProxyTrojan` and its methods.  Go run-time panics are
made explicit as `Fault` values in `Except Fault _`; the `(value, error)`
return pair of `GenerateOptions` is an `Except String _` whose error carries
the message passed to `E.New`.
-/

namespace TrojanProxy

/-! ## Run-time faults and Go maps -/

/-- Go run-time panics that the translator's code can reach. -/
inductive Fault where
  | nilDereference
  | nilMapWrite
  deriving DecidableEq, Repr

/-- A Go `map[string]β`: `none` is the nil map, `some l` an allocated map whose
entries are listed in `l`. -/
abbrev GoMap (β : Type) := Option (List (String × β))

/-- Go `len(m)`; the nil map has length zero. -/
def mapLen {β : Type} (m : GoMap β) : Nat :=
  match m with
  | none => 0
  | some l => l.length

/-- Store `k ↦ v` in the entries of an allocated map, replacing an existing
binding of `k`. -/
def entriesSet {β : Type} (k : String) (v : β) : List (String × β) → List (String × β)
  | [] => [(k, v)]
  | (k', v') :: t => if k' = k then (k, v) :: t else (k', v') :: entriesSet k v t

/-- Go `m[k]` as an r-value on a map of slices: a missing key, and every key
of the nil map, reads as the zero value (the nil slice, `[]`). -/
def mapGet (m : GoMap (List String)) (k : String) : List String :=
  match m with
  | none => []
  | some l => (List.lookup k l).getD []

/-- Go `m[k] = v`: assignment to an entry of the nil map panics. -/
def mapSet {β : Type} (m : GoMap β) (k : String) (v : β) : Except Fault (GoMap β) :=
  match m with
  | none => .error .nilMapWrite
  | some l => .ok (some (entriesSet k v l))

/-! ## Library functions and constants used by the translator -/

/-- Go `net.JoinHostPort`: a host containing a colon is bracketed. -/
def JoinHostPort (host port : String) : String :=
  if ':' ∈ host.data then "[" ++ host ++ "]:" ++ port else host ++ ":" ++ port

/-- Go `strconv.Itoa`. -/
def Itoa (i : Int) : String := toString i

/-- Constant `C.TypeTrojan`. -/
def TypeTrojan : String := "trojan"

/-- Constant `C.V2RayTransportTypeWebsocket`. -/
def V2RayTransportTypeWebsocket : String := "ws"

/-- Constant `C.V2RayTransportTypeGRPC`. -/
def V2RayTransportTypeGRPC : String := "grpc"

/-- Constant `N.NetworkTCP`. -/
def NetworkTCP : String := "tcp"

/-- The `dns.DomainStrategy` enumeration. -/
inductive DomainStrategy where
  | AsIS
  | PreferIPv4
  | PreferIPv6
  | UseIPv4
  | UseIPv6
  deriving DecidableEq, Repr

/-- Go `uint32(x)` for a signed machine integer `x`. -/
def toUint32 (x : Int) : Nat := (x % 4294967296).toNat

/-! ## Raw (Clash-style) options -/

/-- Modelled from the spec: the embedded record `proxyClashDefault`, declared in
another file of the package; these are the fields of it that `trojan.go` reads
(`server_port` is an unsigned 16-bit port number). -/
structure proxyClashDefault where
  Name : String
  Type_ : String
  Server : String
  ServerPort : Nat
  IPVersion : String
  deriving DecidableEq, Repr

structure proxyClashTrojanGRPCOptions where
  ServiceName : String
  deriving DecidableEq, Repr

structure proxyClashTrojanWSOptions where
  Path : String
  Headers : GoMap String
  MaxEarlyData : Int
  EarlyDataHeaderName : String
  deriving DecidableEq, Repr

structure proxyClashTrojanRealityOptions where
  PublicKey : String
  ShortID : String
  deriving DecidableEq, Repr

structure proxyClashTrojan extends proxyClashDefault where
  Password : String
  ALPN : List String
  ServerName : String
  SkipCertVerify : Bool
  FingerPrint : String
  ClientFingerPrint : String
  UDP : Bool
  Network : String
  Flow : String
  FlowShow : Bool
  GrpcOptions : Option proxyClashTrojanGRPCOptions
  WSOptions : Option proxyClashTrojanWSOptions
  RealityOptions : Option proxyClashTrojanRealityOptions
  deriving DecidableEq, Repr

/-! ## Outbound descriptor (package `option`) -/

/-- The record `option.DialerOptions`: the translator touches `DomainStrategy`
only; all remaining fields are kept together in `Rest`. -/
structure DialerOptions (ρ : Type) where
  DomainStrategy : DomainStrategy
  Rest : ρ
  deriving DecidableEq, Repr

structure OutboundUTLSOptions where
  Enabled : Bool
  Fingerprint : String
  deriving DecidableEq, Repr

structure OutboundTLSOptions where
  Enabled : Bool
  ServerName : String
  Insecure : Bool
  ALPN : List String
  UTLS : Option OutboundUTLSOptions
  deriving DecidableEq, Repr

structure V2RayWebsocketOptions where
  Path : String
  Headers : GoMap (List String)
  MaxEarlyData : Nat
  EarlyDataHeaderName : String
  deriving DecidableEq, Repr

structure V2RayGRPCOptions where
  ServiceName : String
  deriving DecidableEq, Repr

structure V2RayTransportOptions where
  Type_ : String
  WebsocketOptions : V2RayWebsocketOptions
  GRPCOptions : V2RayGRPCOptions
  deriving DecidableEq, Repr

structure ServerOptions where
  Server : String
  ServerPort : Nat
  deriving DecidableEq, Repr

structure TrojanOutboundOptions (ρ : Type) where
  DialerOptions : DialerOptions ρ
  ServerOptions : ServerOptions
  Password : String
  Network : String
  TLS : Option OutboundTLSOptions
  Transport : Option V2RayTransportOptions
  deriving DecidableEq, Repr

structure Outbound (ρ : Type) where
  Tag : String
  Type_ : String
  TrojanOptions : TrojanOutboundOptions ρ
  deriving DecidableEq, Repr

/-! ## The translator -/

structure ProxyTrojan (ρ : Type) where
  tag : String
  clashOptions : Option proxyClashTrojan
  dialerOptions : DialerOptions ρ
  deriving DecidableEq, Repr

/-- The dynamically typed argument of `SetClashOptions`: either a
`proxyClashTrojan` value or a value of some other dynamic type. -/
inductive AnyOptions where
  | trojan (c : proxyClashTrojan)
  | other (typeName : String)
  deriving DecidableEq, Repr

/-- Method `Tag`: returns the tag and the translator with the tag memoised. -/
def Tag {ρ : Type} (p : ProxyTrojan ρ) : Except Fault (String × ProxyTrojan ρ) :=
  if p.tag = "" then
    match p.clashOptions with
    | none => .error .nilDereference
    | some c =>
      let p := { p with tag := c.Name }
      if p.tag = "" then
        let p := { p with tag := JoinHostPort c.Server (Itoa (Int.ofNat c.ServerPort)) }
        .ok (p.tag, p)
      else
        .ok (p.tag, p)
  else
    .ok (p.tag, p)

/-- Method `Type`. -/
def Type_ {ρ : Type} (_p : ProxyTrojan ρ) : String := TypeTrojan

/-- Method `SetClashOptions`. -/
def SetClashOptions {ρ : Type} (p : ProxyTrojan ρ) (options : AnyOptions) : Bool × ProxyTrojan ρ :=
  match options with
  | .trojan clashOptions => (true, { p with clashOptions := some clashOptions })
  | .other _ => (false, p)

/-- Method `GetClashType`. -/
def GetClashType {ρ : Type} (p : ProxyTrojan ρ) : Except Fault String :=
  match p.clashOptions with
  | none => .error .nilDereference
  | some c => .ok c.Type_

/-- Method `SetDialerOptions`. -/
def SetDialerOptions {ρ : Type} (p : ProxyTrojan ρ) (dialer : DialerOptions ρ) : ProxyTrojan ρ :=
  { p with dialerOptions := dialer }

/-- Apply `f` to the TLS record behind the pointer `opt.TrojanOptions.TLS`. -/
def modifyTLS {ρ : Type} (opt : Outbound ρ) (f : OutboundTLSOptions → OutboundTLSOptions) :
    Except Fault (Outbound ρ) :=
  match opt.TrojanOptions.TLS with
  | none => .error .nilDereference
  | some tls => .ok { opt with TrojanOptions := { opt.TrojanOptions with TLS := some (f tls) } }

/-- Read `opt.TrojanOptions.TLS.ServerName`. -/
def readTLSServerName {ρ : Type} (opt : Outbound ρ) : Except Fault String :=
  match opt.TrojanOptions.TLS with
  | none => .error .nilDereference
  | some tls => .ok tls.ServerName

/-- Assign `opt.TrojanOptions.Transport.WebsocketOptions.Headers = h`. -/
def setHeaders {ρ : Type} (opt : Outbound ρ) (h : GoMap (List String)) : Except Fault (Outbound ρ) :=
  match opt.TrojanOptions.Transport with
  | none => .error .nilDereference
  | some tr => .ok { opt with TrojanOptions := { opt.TrojanOptions with
      Transport := some { tr with WebsocketOptions := { tr.WebsocketOptions with Headers := h } } } }

/-- Read `opt.TrojanOptions.Transport.WebsocketOptions.Headers`. -/
def readHeaders {ρ : Type} (opt : Outbound ρ) : Except Fault (GoMap (List String)) :=
  match opt.TrojanOptions.Transport with
  | none => .error .nilDereference
  | some tr => .ok tr.WebsocketOptions.Headers

/-- The loop `for k, v := range src { dst[k] = option.Listable[string]{v} }`
over the entries of `src`, writing into the entries of an allocated map. -/
def copyHeaders (src : List (String × String)) (dst : List (String × List String)) :
    List (String × List String) :=
  src.foldl (fun m kv => entriesSet kv.1 [kv.2] m) dst

/-- The `case "ws"` branch of `GenerateOptions`, after the nil check of
`WSOptions`. -/
def wsBranch {ρ : Type} (ws : proxyClashTrojanWSOptions) (opt : Outbound ρ) :
    Except Fault (Outbound ρ) := do
  let opt : Outbound ρ := { opt with TrojanOptions := { opt.TrojanOptions with
    Transport := some {
      Type_ := V2RayTransportTypeWebsocket
      WebsocketOptions := {
        Path := ws.Path
        Headers := none
        MaxEarlyData := toUint32 ws.MaxEarlyData
        EarlyDataHeaderName := ws.EarlyDataHeaderName }
      GRPCOptions := { ServiceName := "" } } } }
  let opt ←
    if ws.Headers ≠ none ∧ mapLen ws.Headers > 0 then
      setHeaders opt (some (copyHeaders (ws.Headers.getD []) []))
    else
      pure opt
  let headers ← readHeaders opt
  if headers = none ∨ mapGet headers "Host" = [] then
    let serverName ← readTLSServerName opt
    let headers ← mapSet headers "Host" [serverName]
    setHeaders opt headers
  else
    pure opt

/-- The `switch p.clashOptions.IPVersion` statement. -/
def applyIPVersion {ρ : Type} (ipVersion : String) (opt : Outbound ρ) : Outbound ρ :=
  let set (s : DomainStrategy) : Outbound ρ :=
    { opt with TrojanOptions := { opt.TrojanOptions with
        DialerOptions := { opt.TrojanOptions.DialerOptions with DomainStrategy := s } } }
  if ipVersion = "dual" then opt
  else if ipVersion = "ipv4" then set .UseIPv4
  else if ipVersion = "ipv6" then set .UseIPv6
  else if ipVersion = "ipv4-prefer" then set .PreferIPv4
  else if ipVersion = "ipv6-prefer" then set .PreferIPv6
  else opt

/-- Error messages of `GenerateOptions`. -/
def errFlow : String := "trojan flow is not supported in sing-box"

def errUTLS : String := "uTLS is not included in this build, rebuild with -tags with_utls"

def errMissingWS : String := "missing ws-opts"

def errMissingGRPC : String := "missing grpc-opts"

/-- Method `GenerateOptions`.  `GetTag` is the package's build-feature
registry, defined outside `trojan.go`.  The result is a fault, or the returned
`(descriptor, error)` pair together with the translator as the call leaves it
(the call of `p.Tag()` memoises the tag). -/
def GenerateOptions {ρ : Type} (GetTag : String → Bool) (p : ProxyTrojan ρ) :
    Except Fault (Except String (Outbound ρ) × ProxyTrojan ρ) :=
  match p.clashOptions with
  | none => .error .nilDereference
  | some c =>
    if c.Flow ≠ "" ∨ c.FlowShow = true then
      .ok (.error errFlow, p)
    else do
      let (tag, p) ← Tag p
      let opt : Outbound ρ := {
        Tag := tag
        Type_ := TypeTrojan
        TrojanOptions := {
          ServerOptions := { Server := c.Server, ServerPort := c.ServerPort }
          Password := c.Password
          TLS := some {
            Enabled := true
            ServerName := c.Server
            Insecure := c.SkipCertVerify
            ALPN := c.ALPN
            UTLS := none }
          DialerOptions := p.dialerOptions
          Network := ""
          Transport := none } }
      let opt ←
        if c.ServerName ≠ "" then modifyTLS opt (fun tls => { tls with ServerName := c.ServerName })
        else pure opt
      -- the registry is queried only inside the test of `ClientFingerPrint`
      if c.ClientFingerPrint ≠ "" ∧ GetTag "with_utls" = false then
        .ok (.error errUTLS, p)
      else do
        let opt ←
          if c.ClientFingerPrint ≠ "" then
            modifyTLS opt (fun tls => { tls with
              UTLS := some { Enabled := true, Fingerprint := c.ClientFingerPrint } })
          else pure opt
        let opt : Outbound ρ :=
          if c.UDP = false then
            { opt with TrojanOptions := { opt.TrojanOptions with Network := NetworkTCP } }
          else opt
        if c.Network = "ws" then
          match c.WSOptions with
          | none => .ok (.error errMissingWS, p)
          | some ws => do
            let opt ← wsBranch ws opt
            .ok (.ok (applyIPVersion c.IPVersion opt), p)
        else if c.Network = "grpc" then
          match c.GrpcOptions with
          | none => .ok (.error errMissingGRPC, p)
          | some g =>
            let opt : Outbound ρ := { opt with TrojanOptions := { opt.TrojanOptions with
              Transport := some {
                Type_ := V2RayTransportTypeGRPC
                WebsocketOptions :=
                  { Path := "", Headers := none, MaxEarlyData := 0, EarlyDataHeaderName := "" }
                GRPCOptions := { ServiceName := g.ServiceName } } } }
            .ok (.ok (applyIPVersion c.IPVersion opt), p)
        else
          .ok (.ok (applyIPVersion c.IPVersion opt), p)


/-! ## Closed forms used in the proofs -/

/-- The tag that `Tag` memoises for a translator bound to the options `c`. -/
def resolvedTag {ρ : Type} (p : ProxyTrojan ρ) (c : proxyClashTrojan) : String :=
  if p.tag = "" then
    (if c.Name = "" then JoinHostPort c.Server (Itoa (Int.ofNat c.ServerPort)) else c.Name)
  else p.tag

/-- The translator after `Tag` has memoised the tag. -/
def memoised {ρ : Type} (p : ProxyTrojan ρ) (c : proxyClashTrojan) : ProxyTrojan ρ :=
  { p with tag := resolvedTag p c }

/-- The TLS record of the descriptor once the SNI and uTLS steps are done. -/
def tlsOf (c : proxyClashTrojan) : OutboundTLSOptions where
  Enabled := true
  ServerName := if c.ServerName = "" then c.Server else c.ServerName
  Insecure := c.SkipCertVerify
  ALPN := c.ALPN
  UTLS := if c.ClientFingerPrint = "" then none
    else some { Enabled := true, Fingerprint := c.ClientFingerPrint }

/-- The descriptor as it stands just before the `switch` on `Network`. -/
def beforeTransport {ρ : Type} (p : ProxyTrojan ρ) (c : proxyClashTrojan) : Outbound ρ where
  Tag := resolvedTag p c
  Type_ := TypeTrojan
  TrojanOptions := {
    DialerOptions := p.dialerOptions
    ServerOptions := { Server := c.Server, ServerPort := c.ServerPort }
    Password := c.Password
    Network := if c.UDP = false then NetworkTCP else ""
    TLS := some (tlsOf c)
    Transport := none }

/-- The websocket headers written by the `case "ws"` branch from the allocated,
non-empty source entries `l`. -/
def wsHeaders (l : List (String × String)) (serverName : String) : List (String × List String) :=
  if (List.lookup "Host" (copyHeaders l [])).getD [] = [] then
    entriesSet "Host" [serverName] (copyHeaders l [])
  else copyHeaders l []

/-- The websocket transport record of a descriptor. -/
def wsTransport (ws : proxyClashTrojanWSOptions) (headers : GoMap (List String)) :
    V2RayTransportOptions where
  Type_ := V2RayTransportTypeWebsocket
  WebsocketOptions := {
    Path := ws.Path
    Headers := headers
    MaxEarlyData := toUint32 ws.MaxEarlyData
    EarlyDataHeaderName := ws.EarlyDataHeaderName }
  GRPCOptions := { ServiceName := "" }

/-- The gRPC transport record of a descriptor. -/
def grpcTransport (g : proxyClashTrojanGRPCOptions) : V2RayTransportOptions where
  Type_ := V2RayTransportTypeGRPC
  WebsocketOptions := { Path := "", Headers := none, MaxEarlyData := 0, EarlyDataHeaderName := "" }
  GRPCOptions := { ServiceName := g.ServiceName }

/-- Replace the transport of a descriptor. -/
def withTransport {ρ : Type} (opt : Outbound ρ) (tr : V2RayTransportOptions) : Outbound ρ :=
  { opt with TrojanOptions := { opt.TrojanOptions with Transport := some tr } }

/-! ## Sequences of method calls -/

/-- One method call on a translator. -/
inductive Call (ρ : Type) where
  | Tag
  | Type_
  | SetClashOptions (options : AnyOptions)
  | GetClashType
  | SetDialerOptions (dialer : DialerOptions ρ)
  | GenerateOptions
  deriving DecidableEq, Repr

/-- The translator as one method call leaves it; a fault ends the run. -/
def applyCall {ρ : Type} (GetTag : String → Bool) (p : ProxyTrojan ρ) (call : Call ρ) :
    Except Fault (ProxyTrojan ρ) :=
  match call with
  | .Tag => (Tag p).map Prod.snd
  | .Type_ => .ok p
  | .SetClashOptions options => .ok (SetClashOptions p options).2
  | .GetClashType => (GetClashType p).map (fun _ => p)
  | .SetDialerOptions dialer => .ok (SetDialerOptions p dialer)
  | .GenerateOptions => (GenerateOptions GetTag p).map Prod.snd

/-- The translator after a sequence of method calls. -/
def runCalls {ρ : Type} (GetTag : String → Bool) (p : ProxyTrojan ρ) :
    List (Call ρ) → Except Fault (ProxyTrojan ρ)
  | [] => .ok p
  | call :: rest =>
    match applyCall GetTag p call with
    | .error f => .error f
    | .ok q => runCalls GetTag q rest

/-! ## Sample inputs -/

/-- A provider entry with every optional field at its default. -/
def plainOptions : proxyClashTrojan where
  Name := ""
  Type_ := "trojan"
  Server := "1.2.3.4"
  ServerPort := 443
  IPVersion := ""
  Password := "secret"
  ALPN := []
  ServerName := ""
  SkipCertVerify := false
  FingerPrint := ""
  ClientFingerPrint := ""
  UDP := false
  Network := ""
  Flow := ""
  FlowShow := false
  GrpcOptions := none
  WSOptions := none
  RealityOptions := none

/-- An ambient dialer policy with no further fields. -/
def plainDialer : DialerOptions Unit := { DomainStrategy := .AsIS, Rest := () }

/-- A freshly constructed translator bound to `c`. -/
def fresh (c : proxyClashTrojan) : ProxyTrojan Unit :=
  { tag := "", clashOptions := some c, dialerOptions := plainDialer }

/-- The entry of the spec's property P6: websocket with an empty headers mapping. -/
def emptyHeadersOptions : proxyClashTrojan :=
  { plainOptions with
    Server := "a.com"
    Network := "ws"
    WSOptions := some { Path := "/x", Headers := some [], MaxEarlyData := 0, EarlyDataHeaderName := "" } }

/-- A websocket entry whose `ws-opts` has no `headers` key at all. -/
def absentHeadersOptions : proxyClashTrojan :=
  { plainOptions with
    Server := "a.com"
    Network := "ws"
    WSOptions := some { Path := "/x", Headers := none, MaxEarlyData := 0, EarlyDataHeaderName := "" } }

/-- A translator whose tag was read while it was bound to an entry named "first" and
which was then re-bound to an entry named "second" on another server and port. -/
def reboundTranslator : ProxyTrojan Unit :=
  { tag := "first"
    clashOptions := some { plainOptions with Name := "second", Server := "b.com", ServerPort := 8443 }
    dialerOptions := plainDialer }

/-- The entry of the spec's property P7: websocket with an explicit `Host` header. -/
def customHostOptions : proxyClashTrojan :=
  { plainOptions with
    Server := "a.com"
    Network := "ws"
    WSOptions := some { Path := "/x", Headers := some [("Host", "custom.com")],
                        MaxEarlyData := 0, EarlyDataHeaderName := "" } }

/-- A websocket entry whose headers spell the host key in lower case, with a negative
early-data budget. -/
def lowerHostWS : proxyClashTrojanWSOptions :=
  { Path := "/ws", Headers := some [("host", "x.com"), ("User-Agent", "ua")],
    MaxEarlyData := -1, EarlyDataHeaderName := "Sec-WebSocket-Protocol" }

def lowerHostOptions : proxyClashTrojan :=
  { plainOptions with
    Server := "a.com"
    ServerName := "sni.example"
    Network := "ws"
    WSOptions := some lowerHostWS }

/-- A gRPC entry. -/
def grpcOptions : proxyClashTrojan :=
  { plainOptions with Network := "grpc", GrpcOptions := some { ServiceName := "svc" } }

/-- A translator whose ambient dialer policy prefers IPv6 and binds an interface, bound
to an entry that asks for IPv4 only. -/
def ipv4Translator : ProxyTrojan String :=
  { tag := ""
    clashOptions := some { plainOptions with IPVersion := "ipv4" }
    dialerOptions := { DomainStrategy := .PreferIPv6, Rest := "bind_interface=eth0" } }

/-- An unnamed entry whose server is an IPv6 literal. -/
def ipv6Options : proxyClashTrojan := { plainOptions with Server := "::1" }


/-! ## Basic facts about the library functions and `Tag` -/

theorem Itoa_ofNat (n : Nat) : Itoa (Int.ofNat n) = toString n := rfl

theorem JoinHostPort_ne_empty (host port : String) : JoinHostPort host port ≠ "" := by
  intro h
  have hl := congrArg String.length h
  unfold JoinHostPort at hl
  split at hl <;> simp [String.length_append] at hl
  · exact absurd hl.1.1.1 (by decide)
  · exact absurd hl.1.2 (by decide)

theorem resolvedTag_ne_empty {ρ : Type} (p : ProxyTrojan ρ) (c : proxyClashTrojan) :
    resolvedTag p c ≠ "" := by
  unfold resolvedTag
  by_cases h1 : p.tag = ""
  · by_cases h2 : c.Name = ""
    · simp only [h1, h2, if_true]
      exact JoinHostPort_ne_empty _ _
    · simp only [h1, h2, if_true, if_false]
      exact h2
  · simp only [h1, if_false]
    exact h1

theorem resolvedTag_of_memoised {ρ : Type} (p : ProxyTrojan ρ) (c : proxyClashTrojan)
    (h : p.tag ≠ "") : resolvedTag p c = p.tag := by
  simp [resolvedTag, h]

theorem memoised_of_memoised {ρ : Type} (p : ProxyTrojan ρ) (c : proxyClashTrojan)
    (h : p.tag ≠ "") : memoised p c = p := by
  simp [memoised, resolvedTag_of_memoised p c h]

theorem Tag_of_bound {ρ : Type} (p : ProxyTrojan ρ) (c : proxyClashTrojan)
    (hc : p.clashOptions = some c) :
    Tag p = .ok (resolvedTag p c, memoised p c) := by
  unfold Tag memoised resolvedTag
  by_cases h1 : p.tag = ""
  · by_cases h2 : c.Name = "" <;> simp [h1, h2, hc]
  · simp [h1]

theorem Tag_of_memoised {ρ : Type} (p : ProxyTrojan ρ) (h : p.tag ≠ "") :
    Tag p = .ok (p.tag, p) := by
  simp [Tag, h]

theorem Tag_result {ρ : Type} (p q : ProxyTrojan ρ) (t : String) (h : Tag p = .ok (t, q)) :
    t ≠ "" ∧ q.tag = t ∧ q.clashOptions = p.clashOptions ∧ q.dialerOptions = p.dialerOptions := by
  by_cases h1 : p.tag = ""
  · cases hc : p.clashOptions with
    | none => simp [Tag, h1, hc] at h
    | some c =>
      rw [Tag_of_bound p c hc] at h
      simp only [Except.ok.injEq, Prod.mk.injEq] at h
      obtain ⟨ht, hq⟩ := h
      subst ht hq
      exact ⟨resolvedTag_ne_empty p c, rfl, hc, rfl⟩
  · rw [Tag_of_memoised p h1] at h
    simp only [Except.ok.injEq, Prod.mk.injEq] at h
    obtain ⟨ht, hq⟩ := h
    subst ht hq
    exact ⟨h1, rfl, rfl, rfl⟩

@[simp] theorem applyIPVersion_Tag {ρ : Type} (v : String) (o : Outbound ρ) :
    (applyIPVersion v o).Tag = o.Tag := by
  unfold applyIPVersion
  split_ifs <;> rfl

@[simp] theorem applyIPVersion_TLS {ρ : Type} (v : String) (o : Outbound ρ) :
    (applyIPVersion v o).TrojanOptions.TLS = o.TrojanOptions.TLS := by
  unfold applyIPVersion
  split_ifs <;> rfl

@[simp] theorem applyIPVersion_Transport {ρ : Type} (v : String) (o : Outbound ρ) :
    (applyIPVersion v o).TrojanOptions.Transport = o.TrojanOptions.Transport := by
  unfold applyIPVersion
  split_ifs <;> rfl

@[simp] theorem applyIPVersion_Network {ρ : Type} (v : String) (o : Outbound ρ) :
    (applyIPVersion v o).TrojanOptions.Network = o.TrojanOptions.Network := by
  unfold applyIPVersion
  split_ifs <;> rfl


/-! ## Closed form of `GenerateOptions` -/

theorem wsBranch_eq {ρ : Type} (ws : proxyClashTrojanWSOptions) (opt : Outbound ρ)
    (tls : OutboundTLSOptions) (h : opt.TrojanOptions.TLS = some tls) :
    wsBranch ws opt =
      match ws.Headers with
      | none => .error .nilMapWrite
      | some [] => .error .nilMapWrite
      | some (e :: l) =>
        .ok (withTransport opt (wsTransport ws (some (wsHeaders (e :: l) tls.ServerName)))) := by
  rcases hh : ws.Headers with _ | l
  · simp [wsBranch, hh, bind, Except.bind, pure, Except.pure, readHeaders, mapSet,
      readTLSServerName, h, mapLen]
  · cases l with
    | nil =>
      simp [wsBranch, hh, bind, Except.bind, pure, Except.pure, readHeaders, mapSet,
        readTLSServerName, h, mapLen]
    | cons e l =>
      simp [wsBranch, hh, bind, Except.bind, pure, Except.pure, readHeaders, mapSet,
        readTLSServerName, h, mapLen, setHeaders, mapGet, withTransport, wsTransport, wsHeaders]
      split <;> simp_all

theorem wsBranch_mk {ρ : Type} (ws : proxyClashTrojanWSOptions) (t ty : String)
    (d : DialerOptions ρ) (so : ServerOptions) (pw n : String) (tls : OutboundTLSOptions)
    (tr : Option V2RayTransportOptions) :
    wsBranch ws { Tag := t, Type_ := ty, TrojanOptions :=
        { DialerOptions := d, ServerOptions := so, Password := pw, Network := n, TLS := some tls,
          Transport := tr } } =
      match ws.Headers with
      | none => .error .nilMapWrite
      | some [] => .error .nilMapWrite
      | some (e :: l) => .ok (withTransport { Tag := t, Type_ := ty, TrojanOptions :=
        { DialerOptions := d, ServerOptions := so, Password := pw, Network := n, TLS := some tls,
          Transport := tr } } (wsTransport ws (some (wsHeaders (e :: l) tls.ServerName)))) :=
  wsBranch_eq ws _ tls rfl

theorem GenerateOptions_eq {ρ : Type} (GetTag : String → Bool) (p : ProxyTrojan ρ)
    (c : proxyClashTrojan) (hc : p.clashOptions = some c) :
    GenerateOptions GetTag p =
      if c.Flow ≠ "" ∨ c.FlowShow = true then .ok (.error errFlow, p)
      else if c.ClientFingerPrint ≠ "" ∧ GetTag "with_utls" = false then
        .ok (.error errUTLS, memoised p c)
      else if c.Network = "ws" then
        match c.WSOptions with
        | none => .ok (.error errMissingWS, memoised p c)
        | some ws =>
          match ws.Headers with
          | none => .error .nilMapWrite
          | some [] => .error .nilMapWrite
          | some (e :: l) =>
            .ok (.ok (applyIPVersion c.IPVersion (withTransport (beforeTransport p c)
              (wsTransport ws (some (wsHeaders (e :: l) (tlsOf c).ServerName))))), memoised p c)
      else if c.Network = "grpc" then
        match c.GrpcOptions with
        | none => .ok (.error errMissingGRPC, memoised p c)
        | some g =>
          .ok (.ok (applyIPVersion c.IPVersion (withTransport (beforeTransport p c)
            (grpcTransport g))), memoised p c)
      else .ok (.ok (applyIPVersion c.IPVersion (beforeTransport p c)), memoised p c) := by
  unfold GenerateOptions
  simp only [hc]
  by_cases hf : c.Flow ≠ "" ∨ c.FlowShow = true
  · simp only [if_pos hf]
  · simp only [if_neg hf, Tag_of_bound p c hc, bind, Except.bind, pure, Except.pure]
    by_cases hsn : c.ServerName = "" <;> by_cases hfp : c.ClientFingerPrint = "" <;>
      cases hg : GetTag "with_utls" <;> cases hu : c.UDP <;>
      simp only [hsn, hfp, modifyTLS, hg, hu, memoised, wsBranch_mk, beforeTransport, tlsOf,
        withTransport, grpcTransport, ne_eq, not_true_eq_false, not_false_eq_true, false_and,
        and_false, and_true, and_self, if_true, if_false, ite_true, ite_false, reduceCtorEq]
    all_goals
      by_cases hn : c.Network = "ws"
      · simp only [if_pos hn]
        cases hw : c.WSOptions with
        | none => rfl
        | some ws =>
          dsimp only
          rcases hh : ws.Headers with _ | _ | ⟨e, l⟩ <;> rfl
      · simp only [if_neg hn]

theorem GenerateOptions_unbound {ρ : Type} (GetTag : String → Bool) (p : ProxyTrojan ρ)
    (hc : p.clashOptions = none) : GenerateOptions GetTag p = .error .nilDereference := by
  simp [GenerateOptions, hc]

/-- What a successful call of `GenerateOptions` tells about its input and result. -/
theorem GenerateOptions_ok_inv {ρ : Type} (GetTag : String → Bool) (p q : ProxyTrojan ρ)
    (c : proxyClashTrojan) (o : Outbound ρ) (hc : p.clashOptions = some c)
    (h : GenerateOptions GetTag p = .ok (.ok o, q)) :
    ¬ (c.Flow ≠ "" ∨ c.FlowShow = true) ∧
    ¬ (c.ClientFingerPrint ≠ "" ∧ GetTag "with_utls" = false) ∧
    q = memoised p c ∧ o.Tag = resolvedTag p c ∧ o.TrojanOptions.TLS = some (tlsOf c) := by
  rw [GenerateOptions_eq GetTag p c hc] at h
  split_ifs at h with h1 h2 h3 h4
  · simp at h
  · simp at h
  · split at h
    · simp at h
    · split at h
      · simp at h
      · simp at h
      · simp only [Except.ok.injEq, Prod.mk.injEq] at h
        obtain ⟨ho, hq⟩ := h
        subst ho hq
        exact ⟨h1, h2, rfl, by simp [withTransport, beforeTransport],
          by simp [withTransport, beforeTransport]⟩
  · split at h
    · simp at h
    · simp only [Except.ok.injEq, Prod.mk.injEq] at h
      obtain ⟨ho, hq⟩ := h
      subst ho hq
      exact ⟨h1, h2, rfl, by simp [withTransport, beforeTransport],
        by simp [withTransport, beforeTransport]⟩
  · simp only [Except.ok.injEq, Prod.mk.injEq] at h
    obtain ⟨ho, hq⟩ := h
    subst ho hq
    exact ⟨h1, h2, rfl, by simp [beforeTransport], by simp [beforeTransport]⟩

/-- The translator as any returning call of `GenerateOptions` leaves it. -/
theorem GenerateOptions_state {ρ : Type} (GetTag : String → Bool) (p q : ProxyTrojan ρ)
    (c : proxyClashTrojan) (r : Except String (Outbound ρ)) (hc : p.clashOptions = some c)
    (h : GenerateOptions GetTag p = .ok (r, q)) : q = p ∨ q = memoised p c := by
  rw [GenerateOptions_eq GetTag p c hc] at h
  split_ifs at h
  · simp only [Except.ok.injEq, Prod.mk.injEq] at h
    exact Or.inl h.2.symm
  · simp only [Except.ok.injEq, Prod.mk.injEq] at h
    exact Or.inr h.2.symm
  · split at h
    · simp only [Except.ok.injEq, Prod.mk.injEq] at h
      exact Or.inr h.2.symm
    · split at h
      · simp at h
      · simp at h
      · simp only [Except.ok.injEq, Prod.mk.injEq] at h
        exact Or.inr h.2.symm
  · split at h
    · simp only [Except.ok.injEq, Prod.mk.injEq] at h
      exact Or.inr h.2.symm
    · simp only [Except.ok.injEq, Prod.mk.injEq] at h
      exact Or.inr h.2.symm
  · simp only [Except.ok.injEq, Prod.mk.injEq] at h
    exact Or.inr h.2.symm

/-- With bound raw options, `GenerateOptions` faults exactly on the websocket branch with
an absent or empty `headers` mapping, and then with a write to a nil map. -/
theorem GenerateOptions_fault_iff {ρ : Type} (GetTag : String → Bool) (p : ProxyTrojan ρ)
    (c : proxyClashTrojan) (hc : p.clashOptions = some c) (f : Fault) :
    GenerateOptions GetTag p = .error f ↔
      f = .nilMapWrite ∧ ¬ (c.Flow ≠ "" ∨ c.FlowShow = true) ∧
      ¬ (c.ClientFingerPrint ≠ "" ∧ GetTag "with_utls" = false) ∧ c.Network = "ws" ∧
      ∃ ws, c.WSOptions = some ws ∧ (ws.Headers = none ∨ ws.Headers = some []) := by
  rw [GenerateOptions_eq GetTag p c hc]
  by_cases h1 : c.Flow ≠ "" ∨ c.FlowShow = true
  · simp only [if_pos h1, reduceCtorEq, false_iff]
    exact fun h => h.2.1 h1
  · by_cases h2 : c.ClientFingerPrint ≠ "" ∧ GetTag "with_utls" = false
    · simp only [if_neg h1, if_pos h2, reduceCtorEq, false_iff]
      exact fun h => h.2.2.1 h2
    · by_cases h3 : c.Network = "ws"
      · simp only [if_neg h1, if_neg h2, if_pos h3]
        cases hw : c.WSOptions with
        | none => simp
        | some ws =>
          dsimp only
          rcases hh : ws.Headers with _ | _ | ⟨e, l⟩
          · constructor
            · intro h
              simp only [Except.error.injEq] at h
              exact ⟨h.symm, h1, h2, h3, ws, rfl, Or.inl hh⟩
            · intro h
              rw [h.1]
          · constructor
            · intro h
              simp only [Except.error.injEq] at h
              exact ⟨h.symm, h1, h2, h3, ws, rfl, Or.inr hh⟩
            · intro h
              rw [h.1]
          · simp [hh]
      · simp only [if_neg h1, if_neg h2, if_neg h3]
        split_ifs
        · cases c.GrpcOptions <;> simp [h3]
        · simp [h3]


/-! ## Claims -/

/-- C1 (as the code behaves): on the websocket branch, when the earlier checks pass and
the `headers` mapping of `ws-opts` is empty or absent, `GenerateOptions` does not return a
descriptor with a synthesised `Host` header: the write of `Host` hits the nil map and the
call faults. -/
theorem GenerateOptions_ws_without_headers_faults {ρ : Type} (GetTag : String → Bool)
    (p : ProxyTrojan ρ) (c : proxyClashTrojan) (ws : proxyClashTrojanWSOptions)
    (hc : p.clashOptions = some c) (hflow : c.Flow = "") (hshow : c.FlowShow = false)
    (hfp : c.ClientFingerPrint = "" ∨ GetTag "with_utls" = true) (hn : c.Network = "ws")
    (hw : c.WSOptions = some ws) (hh : ws.Headers = some [] ∨ ws.Headers = none) :
    GenerateOptions GetTag p = .error .nilMapWrite := by
  rw [GenerateOptions_eq GetTag p c hc]
  have h1 : ¬ (c.Flow ≠ "" ∨ c.FlowShow = true) := by simp [hflow, hshow]
  have h2 : ¬ (c.ClientFingerPrint ≠ "" ∧ GetTag "with_utls" = false) := by
    rcases hfp with h | h <;> simp [h]
  rw [if_neg h1, if_neg h2, if_pos hn, hw]
  rcases hh with h | h <;> simp [h]

/-- Witness for C1 at the input of the spec's property P6 (`server` "a.com", `sni` "",
`ws-opts` with path "/x" and empty headers). -/
theorem GenerateOptions_ws_without_headers_faults_witness :
    GenerateOptions (fun _ => false) (fresh emptyHeadersOptions) = .error .nilMapWrite :=
  GenerateOptions_ws_without_headers_faults (fun _ => false) (fresh emptyHeadersOptions)
    emptyHeadersOptions
    { Path := "/x", Headers := some [], MaxEarlyData := 0, EarlyDataHeaderName := "" }
    rfl rfl rfl (Or.inl rfl) rfl rfl (Or.inl rfl)

/-- C2 (as the code behaves): a translator with bound raw options, a websocket entry whose
`ws-opts` carries no headers, makes `GenerateOptions` fault with a write to a nil map,
whatever the feature registry answers. -/
theorem GenerateOptions_faults_on_absent_headers :
    (fresh absentHeadersOptions).clashOptions = some absentHeadersOptions ∧
    GenerateOptions (fun _ => true) (fresh absentHeadersOptions) = .error .nilMapWrite ∧
    GenerateOptions (fun _ => false) (fresh absentHeadersOptions) = .error .nilMapWrite :=
  ⟨rfl, rfl, rfl⟩

/-- C3 (counterexample): for the unnamed entry with server "::1" and port 443 the tag is
"[::1]:443", not server ++ ":" ++ port. -/
theorem Tag_ipv6_is_bracketed :
    (fresh ipv6Options).tag = "" ∧ ipv6Options.Name = "" ∧
    Except.map Prod.fst (Tag (fresh ipv6Options)) = .ok "[::1]:443" ∧
    Except.map Prod.fst (Tag (fresh ipv6Options)) ≠
      .ok (ipv6Options.Server ++ ":" ++ toString ipv6Options.ServerPort) := by
  have h : Except.map Prod.fst (Tag (fresh ipv6Options)) = .ok "[::1]:443" := rfl
  refine ⟨rfl, rfl, h, ?_⟩
  rw [h]
  intro hEq
  have h2 := congrArg (fun r => match r with | Except.ok t => t | Except.error _ => "") hEq
  exact absurd h2 (by decide)

/-- C3 (amended): for a freshly constructed translator whose bound options have an empty
name, `Tag` returns server ++ ":" ++ decimal(server_port) when the server contains no
colon, and "[" ++ server ++ "]:" ++ decimal(server_port) when it contains one; the tag is
memoised. -/
theorem Tag_of_unnamed {ρ : Type} (p : ProxyTrojan ρ) (c : proxyClashTrojan)
    (ht : p.tag = "") (hc : p.clashOptions = some c) (hn : c.Name = "") :
    (':' ∉ c.Server.data →
      Tag p = .ok (c.Server ++ ":" ++ toString c.ServerPort,
        { p with tag := c.Server ++ ":" ++ toString c.ServerPort })) ∧
    (':' ∈ c.Server.data →
      Tag p = .ok ("[" ++ c.Server ++ "]:" ++ toString c.ServerPort,
        { p with tag := "[" ++ c.Server ++ "]:" ++ toString c.ServerPort })) := by
  rw [Tag_of_bound p c hc]
  constructor <;> intro hcol <;>
    simp only [memoised, resolvedTag, ht, hn, JoinHostPort, hcol, Itoa_ofNat, if_true, if_false]

/-- Witness for C3 at the input of the spec's property P1. -/
theorem Tag_of_unnamed_witness :
    Tag (fresh plainOptions) = .ok ("1.2.3.4:443", { fresh plainOptions with tag := "1.2.3.4:443" }) :=
  (Tag_of_unnamed (fresh plainOptions) plainOptions rfl rfl rfl).1 (by decide)

/-- C4: a freshly constructed translator whose bound options have a non-empty name returns
exactly that name from `Tag`, and every descriptor `GenerateOptions` returns, before or
after that `Tag` call, carries the name as its tag. -/
theorem Tag_of_named {ρ : Type} (p : ProxyTrojan ρ) (c : proxyClashTrojan)
    (ht : p.tag = "") (hc : p.clashOptions = some c) (hn : c.Name ≠ "") :
    Tag p = .ok (c.Name, { p with tag := c.Name }) ∧
    (∀ (GetTag : String → Bool) (o : Outbound ρ) (q : ProxyTrojan ρ),
      GenerateOptions GetTag p = .ok (.ok o, q) → o.Tag = c.Name) ∧
    (∀ (GetTag : String → Bool) (o : Outbound ρ) (q : ProxyTrojan ρ),
      GenerateOptions GetTag { p with tag := c.Name } = .ok (.ok o, q) → o.Tag = c.Name) := by
  have hr : resolvedTag p c = c.Name := by simp [resolvedTag, ht, hn]
  refine ⟨?_, ?_, ?_⟩
  · rw [Tag_of_bound p c hc, memoised, hr]
  · intro GetTag o q h
    rw [(GenerateOptions_ok_inv GetTag p q c o hc h).2.2.2.1, hr]
  · intro GetTag o q h
    rw [(GenerateOptions_ok_inv GetTag { p with tag := c.Name } q c o hc h).2.2.2.1]
    exact resolvedTag_of_memoised { p with tag := c.Name } c hn

/-- Witness for C4: the entry named "node-1" keeps that tag in `Tag` and in its descriptor. -/
theorem Tag_of_named_witness :
    Tag (fresh { plainOptions with Name := "node-1" }) =
      .ok ("node-1", { fresh { plainOptions with Name := "node-1" } with tag := "node-1" }) ∧
    ∃ o q, GenerateOptions (fun _ => false) (fresh { plainOptions with Name := "node-1" }) =
      .ok (.ok o, q) ∧ o.Tag = "node-1" :=
  have h := Tag_of_named (fresh { plainOptions with Name := "node-1" })
    { plainOptions with Name := "node-1" } rfl rfl (by decide)
  ⟨h.1, _, _, rfl, h.2.1 (fun _ => false) _ _ rfl⟩


/-! ## Memoisation across method calls -/

theorem applyCall_tag {ρ : Type} (GetTag : String → Bool) (p q : ProxyTrojan ρ) (call : Call ρ)
    (ht : p.tag ≠ "") (h : applyCall GetTag p call = .ok q) : q.tag = p.tag := by
  cases call with
  | Tag =>
    simp only [applyCall, Tag_of_memoised p ht, Except.map, Except.ok.injEq] at h
    rw [← h]
  | Type_ =>
    simp only [applyCall, Except.ok.injEq] at h
    rw [← h]
  | SetClashOptions options =>
    simp only [applyCall, Except.ok.injEq] at h
    rw [← h]
    cases options <;> rfl
  | GetClashType =>
    cases hc : p.clashOptions with
    | none => simp [applyCall, GetClashType, hc, Except.map] at h
    | some c =>
      simp only [applyCall, GetClashType, hc, Except.map, Except.ok.injEq] at h
      rw [← h]
  | SetDialerOptions dialer =>
    simp only [applyCall, Except.ok.injEq] at h
    rw [← h]
    rfl
  | GenerateOptions =>
    cases hc : p.clashOptions with
    | none => simp [applyCall, GenerateOptions_unbound GetTag p hc, Except.map] at h
    | some c =>
      cases hg : GenerateOptions GetTag p with
      | error f => simp [applyCall, hg, Except.map] at h
      | ok r =>
        obtain ⟨r, q'⟩ := r
        simp only [applyCall, hg, Except.map, Except.ok.injEq] at h
        subst h
        rcases GenerateOptions_state GetTag p q' c r hc hg with h1 | h1
        · rw [h1]
        · rw [h1, memoised_of_memoised p c ht]

theorem runCalls_tag {ρ : Type} (GetTag : String → Bool) (calls : List (Call ρ))
    (p q : ProxyTrojan ρ) (ht : p.tag ≠ "") (h : runCalls GetTag p calls = .ok q) :
    q.tag = p.tag := by
  induction calls generalizing p with
  | nil =>
    simp only [runCalls, Except.ok.injEq] at h
    rw [← h]
  | cons call rest ih =>
    cases hs : applyCall GetTag p call with
    | error f => simp [runCalls, hs] at h
    | ok p' =>
      simp only [runCalls, hs] at h
      have hp' := applyCall_tag GetTag p p' call ht hs
      rw [ih p' (by rw [hp']; exact ht) h, hp']

/-- C5: once `Tag` has returned `t`, then after any further sequence of method calls
(among them `SetClashOptions` with new options that is accepted) `Tag` again returns `t`
and leaves the translator as it is, and every descriptor `GenerateOptions` returns
carries the tag `t`. -/
theorem Tag_memoised_for_good {ρ : Type} (GetTag : String → Bool) (p p' q : ProxyTrojan ρ)
    (t : String) (calls : List (Call ρ)) (h : Tag p = .ok (t, p'))
    (hrun : runCalls GetTag p' calls = .ok q) :
    Tag q = .ok (t, q) ∧
    ∀ (o : Outbound ρ) (q' : ProxyTrojan ρ),
      GenerateOptions GetTag q = .ok (.ok o, q') → o.Tag = t := by
  obtain ⟨hne, htag, -, -⟩ := Tag_result p p' t h
  have hq : q.tag = t := by
    rw [runCalls_tag GetTag calls p' q (by rw [htag]; exact hne) hrun, htag]
  have hqne : q.tag ≠ "" := by rw [hq]; exact hne
  refine ⟨by rw [Tag_of_memoised q hqne, hq], ?_⟩
  intro o q' hg
  cases hc : q.clashOptions with
  | none => simp [GenerateOptions_unbound GetTag q hc] at hg
  | some c =>
    rw [(GenerateOptions_ok_inv GetTag q q' c o hc hg).2.2.2.1,
      resolvedTag_of_memoised q c hqne, hq]

/-- Witness for C5: the translator named "first" is read once, then re-bound to an entry
named "second" on another server and port; tag and descriptor tag stay "first". -/
theorem Tag_memoised_for_good_witness :
    Tag (fresh { plainOptions with Name := "first" }) =
      .ok ("first", { fresh { plainOptions with Name := "first" } with tag := "first" }) ∧
    (SetClashOptions { fresh { plainOptions with Name := "first" } with tag := "first" }
      (.trojan { plainOptions with Name := "second", Server := "b.com", ServerPort := 8443 })).1
      = true ∧
    Tag (reboundTranslator) = .ok ("first", reboundTranslator) ∧
    ∃ o q', GenerateOptions (fun _ => false) reboundTranslator = .ok (.ok o, q') ∧
      o.Tag = "first" ∧ o.TrojanOptions.ServerOptions.Server = "b.com" :=
  have h := Tag_memoised_for_good (fun _ => false) (fresh { plainOptions with Name := "first" })
    { fresh { plainOptions with Name := "first" } with tag := "first" } reboundTranslator
    "first"
    [.SetClashOptions
      (.trojan { plainOptions with Name := "second", Server := "b.com", ServerPort := 8443 })]
    rfl rfl
  ⟨rfl, rfl, h.1, _, _, rfl, h.2 _ _ rfl, rfl⟩

/-- C6: a translator with bound raw options always gets a non-empty string from `Tag`,
and every descriptor `GenerateOptions` returns has a non-empty tag. -/
theorem Tag_nonempty {ρ : Type} (p : ProxyTrojan ρ) (c : proxyClashTrojan)
    (hc : p.clashOptions = some c) :
    (∃ (t : String) (q : ProxyTrojan ρ), Tag p = .ok (t, q) ∧ t ≠ "") ∧
    ∀ (GetTag : String → Bool) (o : Outbound ρ) (q : ProxyTrojan ρ),
      GenerateOptions GetTag p = .ok (.ok o, q) → o.Tag ≠ "" := by
  refine ⟨⟨resolvedTag p c, memoised p c, Tag_of_bound p c hc, resolvedTag_ne_empty p c⟩, ?_⟩
  intro GetTag o q h
  rw [(GenerateOptions_ok_inv GetTag p q c o hc h).2.2.2.1]
  exact resolvedTag_ne_empty p c

/-- Witness for C6: name and server both empty, port 0; the tag is ":0". -/
theorem Tag_nonempty_witness :
    (∃ (t : String) (q : ProxyTrojan Unit),
      Tag (fresh { plainOptions with Server := "", ServerPort := 0 }) = .ok (t, q) ∧ t ≠ "") ∧
    ∃ o q, GenerateOptions (fun _ => false)
      (fresh { plainOptions with Server := "", ServerPort := 0 }) = .ok (.ok o, q) ∧
      o.Tag = ":0" ∧ o.Tag ≠ "" :=
  have h := Tag_nonempty (fresh { plainOptions with Server := "", ServerPort := 0 })
    { plainOptions with Server := "", ServerPort := 0 } rfl
  ⟨h.1, _, _, rfl, rfl, h.2 (fun _ => false) _ _ rfl⟩


/-! ## Validation order and error results -/

/-- C7: with `flow` non-empty or `flow_show` set, `GenerateOptions` returns the
unsupported-flow error and no descriptor, whatever the other fields, the feature registry
and the dialer policy are, and leaves the translator untouched; and the flow error is
returned only in that case. -/
theorem flow_is_rejected {ρ : Type} (GetTag : String → Bool) (p : ProxyTrojan ρ)
    (c : proxyClashTrojan) (hc : p.clashOptions = some c) :
    ((c.Flow ≠ "" ∨ c.FlowShow = true) →
      GenerateOptions GetTag p = .ok (.error errFlow, p)) ∧
    (∀ q : ProxyTrojan ρ, GenerateOptions GetTag p = .ok (.error errFlow, q) →
      (c.Flow ≠ "" ∨ c.FlowShow = true)) := by
  constructor
  · intro hf
    rw [GenerateOptions_eq GetTag p c hc, if_pos hf]
  · intro q h
    by_contra hf
    rw [GenerateOptions_eq GetTag p c hc, if_neg hf] at h
    have e1 : errUTLS ≠ errFlow := by decide
    have e2 : errMissingWS ≠ errFlow := by decide
    have e3 : errMissingGRPC ≠ errFlow := by decide
    split_ifs at h
    · simp [e1] at h
    · split at h
      · simp [e2] at h
      · split at h <;> simp at h
    · split at h
      · simp [e3] at h
      · simp at h
    · simp at h

/-- Witness for C7: an entry with `flow` set that also asks for an unavailable fingerprint
and a websocket without `ws-opts` gets the flow error. -/
theorem flow_is_rejected_witness :
    GenerateOptions (fun _ => false)
      (fresh { plainOptions with Flow := "xtls-rprx-direct", ClientFingerPrint := "chrome",
                                 Network := "ws" }) =
      .ok (.error "trojan flow is not supported in sing-box",
        fresh { plainOptions with Flow := "xtls-rprx-direct", ClientFingerPrint := "chrome",
                                  Network := "ws" }) :=
  (flow_is_rejected (fun _ => false)
    (fresh { plainOptions with Flow := "xtls-rprx-direct", ClientFingerPrint := "chrome",
                               Network := "ws" })
    { plainOptions with Flow := "xtls-rprx-direct", ClientFingerPrint := "chrome",
                        Network := "ws" } rfl).1 (Or.inl (by decide))

/-- C8: for options that pass the flow check and name a client fingerprint `f`, a build
without `with_utls` gets the missing-build-feature error (its message names `with_utls`)
and no descriptor, and a build with it gets, on success, a TLS record whose uTLS part is
present with `Enabled = true` and `Fingerprint = f`.  With an empty client fingerprint the
uTLS part is absent and the registry's answer does not change the result. -/
theorem utls_feature_gate {ρ : Type} (GetTag : String → Bool) (p : ProxyTrojan ρ)
    (c : proxyClashTrojan) (hc : p.clashOptions = some c) :
    (c.Flow = "" → c.FlowShow = false → c.ClientFingerPrint ≠ "" →
      GetTag "with_utls" = false →
      ∃ q : ProxyTrojan ρ, GenerateOptions GetTag p = .ok (.error errUTLS, q)) ∧
    (∃ pre suf : String, errUTLS = pre ++ "with_utls" ++ suf) ∧
    (c.Flow = "" → c.FlowShow = false → c.ClientFingerPrint ≠ "" →
      GetTag "with_utls" = true →
      ∀ (o : Outbound ρ) (q : ProxyTrojan ρ), GenerateOptions GetTag p = .ok (.ok o, q) →
        ∃ tls : OutboundTLSOptions, o.TrojanOptions.TLS = some tls ∧
          tls.UTLS = some { Enabled := true, Fingerprint := c.ClientFingerPrint }) ∧
    (c.ClientFingerPrint = "" →
      (∀ (o : Outbound ρ) (q : ProxyTrojan ρ), GenerateOptions GetTag p = .ok (.ok o, q) →
        ∃ tls : OutboundTLSOptions, o.TrojanOptions.TLS = some tls ∧ tls.UTLS = none) ∧
      ∀ GetTag' : String → Bool, GenerateOptions GetTag' p = GenerateOptions GetTag p) := by
  refine ⟨?_, ⟨"uTLS is not included in this build, rebuild with -tags ", "", by decide⟩,
    ?_, ?_⟩
  · intro hflow hshow hfp hg
    refine ⟨memoised p c, ?_⟩
    rw [GenerateOptions_eq GetTag p c hc, if_neg (by simp [hflow, hshow]), if_pos ⟨hfp, hg⟩]
  · intro _ _ hfp _ o q h
    refine ⟨tlsOf c, (GenerateOptions_ok_inv GetTag p q c o hc h).2.2.2.2, ?_⟩
    simp [tlsOf, hfp]
  · intro hfp
    constructor
    · intro o q h
      refine ⟨tlsOf c, (GenerateOptions_ok_inv GetTag p q c o hc h).2.2.2.2, ?_⟩
      simp [tlsOf, hfp]
    · intro GetTag'
      rw [GenerateOptions_eq GetTag p c hc, GenerateOptions_eq GetTag' p c hc]
      simp [hfp]

/-- Witness for C8 at the input of the spec's property P10: fingerprint "chrome", once
without and once with the feature. -/
theorem utls_feature_gate_witness :
    (∃ q, GenerateOptions (fun _ => false)
      (fresh { plainOptions with ClientFingerPrint := "chrome" }) =
      .ok (.error "uTLS is not included in this build, rebuild with -tags with_utls", q)) ∧
    ∃ o q tls, GenerateOptions (fun _ => true)
      (fresh { plainOptions with ClientFingerPrint := "chrome" }) = .ok (.ok o, q) ∧
      o.TrojanOptions.TLS = some tls ∧
      tls.UTLS = some { Enabled := true, Fingerprint := "chrome" } :=
  have h0 := utls_feature_gate (fun _ => false)
    (fresh { plainOptions with ClientFingerPrint := "chrome" })
    { plainOptions with ClientFingerPrint := "chrome" } rfl
  have h1 := utls_feature_gate (fun _ => true)
    (fresh { plainOptions with ClientFingerPrint := "chrome" })
    { plainOptions with ClientFingerPrint := "chrome" } rfl
  ⟨h0.1 rfl rfl (by decide) rfl,
    (h1.2.2.1 rfl rfl (by decide) rfl _ _ rfl).elim
      (fun tls htls => ⟨_, _, tls, rfl, htls.1, htls.2⟩)⟩


/-- C9: an entry selecting "ws" without `ws-opts`, or "grpc" without `grpc-opts`, never
yields a descriptor: `GenerateOptions` returns an error, and when the earlier checks pass
it is the missing-sub-options error naming "ws-opts", respectively "grpc-opts".  The
sub-options of a transport that is not selected do not influence the result, so they may
be null: a gRPC entry without `ws-opts` and a plain entry without either succeed. -/
theorem missing_sub_options {ρ : Type} (GetTag : String → Bool) (p : ProxyTrojan ρ)
    (c : proxyClashTrojan) (hc : p.clashOptions = some c) :
    (c.Network = "ws" → c.WSOptions = none →
      (∃ (msg : String) (q : ProxyTrojan ρ), GenerateOptions GetTag p = .ok (.error msg, q)) ∧
      (c.Flow = "" → c.FlowShow = false →
        (c.ClientFingerPrint = "" ∨ GetTag "with_utls" = true) →
        ∃ q : ProxyTrojan ρ, GenerateOptions GetTag p = .ok (.error errMissingWS, q))) ∧
    (c.Network = "grpc" → c.GrpcOptions = none →
      (∃ (msg : String) (q : ProxyTrojan ρ), GenerateOptions GetTag p = .ok (.error msg, q)) ∧
      (c.Flow = "" → c.FlowShow = false →
        (c.ClientFingerPrint = "" ∨ GetTag "with_utls" = true) →
        ∃ q : ProxyTrojan ρ, GenerateOptions GetTag p = .ok (.error errMissingGRPC, q))) ∧
    (c.Network ≠ "ws" → ∀ w : Option proxyClashTrojanWSOptions,
      Except.map Prod.fst
          (GenerateOptions GetTag { p with clashOptions := some { c with WSOptions := w } }) =
        Except.map Prod.fst (GenerateOptions GetTag p)) ∧
    (c.Network ≠ "grpc" → ∀ g : Option proxyClashTrojanGRPCOptions,
      Except.map Prod.fst
          (GenerateOptions GetTag { p with clashOptions := some { c with GrpcOptions := g } }) =
        Except.map Prod.fst (GenerateOptions GetTag p)) ∧
    (c.Flow = "" → c.FlowShow = false →
      (c.ClientFingerPrint = "" ∨ GetTag "with_utls" = true) →
      (c.Network = "grpc" ∧ c.GrpcOptions ≠ none ∨ c.Network ≠ "ws" ∧ c.Network ≠ "grpc") →
      c.WSOptions = none →
      ∃ (o : Outbound ρ) (q : ProxyTrojan ρ), GenerateOptions GetTag p = .ok (.ok o, q)) := by
  have hpass : c.Flow = "" → c.FlowShow = false →
      (c.ClientFingerPrint = "" ∨ GetTag "with_utls" = true) →
      ¬ (c.Flow ≠ "" ∨ c.FlowShow = true) ∧
      ¬ (c.ClientFingerPrint ≠ "" ∧ GetTag "with_utls" = false) := by
    intro h1 h2 h3
    refine ⟨by simp [h1, h2], ?_⟩
    rcases h3 with h | h <;> simp [h]
  have hne : ("grpc" : String) ≠ "ws" := by decide
  refine ⟨?_, ?_, ?_, ?_, ?_⟩
  · intro hn hw
    constructor
    · rw [GenerateOptions_eq GetTag p c hc]
      split_ifs
      · exact ⟨_, _, rfl⟩
      · exact ⟨_, _, rfl⟩
      · rw [hw]
        exact ⟨_, _, rfl⟩
    · intro h1 h2 h3
      obtain ⟨ha, hb⟩ := hpass h1 h2 h3
      rw [GenerateOptions_eq GetTag p c hc, if_neg ha, if_neg hb, if_pos hn, hw]
      exact ⟨_, rfl⟩
  · intro hn hg
    have hn' : c.Network ≠ "ws" := by rw [hn]; exact hne
    constructor
    · rw [GenerateOptions_eq GetTag p c hc]
      split_ifs
      · exact ⟨_, _, rfl⟩
      · exact ⟨_, _, rfl⟩
      · rw [hg]
        exact ⟨_, _, rfl⟩
    · intro h1 h2 h3
      obtain ⟨ha, hb⟩ := hpass h1 h2 h3
      rw [GenerateOptions_eq GetTag p c hc, if_neg ha, if_neg hb, if_neg hn', if_pos hn, hg]
      exact ⟨_, rfl⟩
  · intro hn w
    rw [GenerateOptions_eq GetTag p c hc,
      GenerateOptions_eq GetTag { p with clashOptions := some { c with WSOptions := w } }
        { c with WSOptions := w } rfl]
    simp only [if_neg hn]
    split_ifs
    · rfl
    · rfl
    · cases c.GrpcOptions <;> rfl
    · rfl
  · intro hn g
    rw [GenerateOptions_eq GetTag p c hc,
      GenerateOptions_eq GetTag { p with clashOptions := some { c with GrpcOptions := g } }
        { c with GrpcOptions := g } rfl]
    simp only [if_neg hn]
    split_ifs
    · rfl
    · rfl
    · cases c.WSOptions with
      | none => rfl
      | some ws =>
        dsimp only
        rcases ws.Headers with _ | _ | ⟨e, l⟩ <;> rfl
    · rfl
  · intro h1 h2 h3 h4 _
    obtain ⟨ha, hb⟩ := hpass h1 h2 h3
    rw [GenerateOptions_eq GetTag p c hc, if_neg ha, if_neg hb]
    rcases h4 with ⟨hn, hg⟩ | ⟨hn, hg⟩
    · have hn' : c.Network ≠ "ws" := by rw [hn]; exact hne
      rw [if_neg hn', if_pos hn]
      cases hgo : c.GrpcOptions with
      | none => exact absurd hgo hg
      | some g => exact ⟨_, _, rfl⟩
    · rw [if_neg hn, if_neg hg]
      exact ⟨_, _, rfl⟩

/-- Witness for C9 at the input of the spec's property P5 (`network` "ws", no `ws-opts`),
with a gRPC entry that has no `ws-opts` for the last part. -/
theorem missing_sub_options_witness :
    (∃ q, GenerateOptions (fun _ => false) (fresh { plainOptions with Network := "ws" }) =
      .ok (.error "missing ws-opts", q)) ∧
    (∃ q, GenerateOptions (fun _ => false) (fresh { plainOptions with Network := "grpc" }) =
      .ok (.error "missing grpc-opts", q)) ∧
    ∃ o q, GenerateOptions (fun _ => false)
      (fresh { plainOptions with Network := "grpc", GrpcOptions := some { ServiceName := "svc" } })
      = .ok (.ok o, q) :=
  ⟨((missing_sub_options (fun _ => false) (fresh { plainOptions with Network := "ws" })
      { plainOptions with Network := "ws" } rfl).1 rfl rfl).2 rfl rfl (Or.inl rfl),
   ((missing_sub_options (fun _ => false) (fresh { plainOptions with Network := "grpc" })
      { plainOptions with Network := "grpc" } rfl).2.1 rfl rfl).2 rfl rfl (Or.inl rfl),
   (missing_sub_options (fun _ => false)
      (fresh { plainOptions with Network := "grpc", GrpcOptions := some { ServiceName := "svc" } })
      { plainOptions with Network := "grpc", GrpcOptions := some { ServiceName := "svc" } }
      rfl).2.2.2.2 rfl rfl (Or.inl rfl) (Or.inl ⟨rfl, by decide⟩) rfl⟩

/-- C10: the checks fail fast in the order flow, build feature, transport sub-options:
a flow violation gives the flow error whatever else is wrong; without one, a client
fingerprint on a build without `with_utls` gives the missing-build-feature error even if
the selected transport lacks its sub-options; only when both pass is the
missing-sub-options error returned.  The four messages are pairwise different. -/
theorem first_failing_check_wins {ρ : Type} (GetTag : String → Bool) (p : ProxyTrojan ρ)
    (c : proxyClashTrojan) (hc : p.clashOptions = some c) :
    ((c.Flow ≠ "" ∨ c.FlowShow = true) →
      GenerateOptions GetTag p = .ok (.error errFlow, p)) ∧
    (c.Flow = "" → c.FlowShow = false → c.ClientFingerPrint ≠ "" →
      GetTag "with_utls" = false →
      ∃ q : ProxyTrojan ρ, GenerateOptions GetTag p = .ok (.error errUTLS, q)) ∧
    (c.Flow = "" → c.FlowShow = false →
      (c.ClientFingerPrint = "" ∨ GetTag "with_utls" = true) →
      (c.Network = "ws" → c.WSOptions = none →
        ∃ q : ProxyTrojan ρ, GenerateOptions GetTag p = .ok (.error errMissingWS, q)) ∧
      (c.Network = "grpc" → c.GrpcOptions = none →
        ∃ q : ProxyTrojan ρ, GenerateOptions GetTag p = .ok (.error errMissingGRPC, q))) ∧
    (errFlow ≠ errUTLS ∧ errFlow ≠ errMissingWS ∧ errFlow ≠ errMissingGRPC ∧
      errUTLS ≠ errMissingWS ∧ errUTLS ≠ errMissingGRPC ∧ errMissingWS ≠ errMissingGRPC) := by
  refine ⟨?_, ?_, ?_, by decide⟩
  · intro hf
    rw [GenerateOptions_eq GetTag p c hc, if_pos hf]
  · intro h1 h2 hfp hg
    rw [GenerateOptions_eq GetTag p c hc, if_neg (by simp [h1, h2]), if_pos ⟨hfp, hg⟩]
    exact ⟨_, rfl⟩
  · intro h1 h2 h3
    have ha : ¬ (c.Flow ≠ "" ∨ c.FlowShow = true) := by simp [h1, h2]
    have hb : ¬ (c.ClientFingerPrint ≠ "" ∧ GetTag "with_utls" = false) := by
      rcases h3 with h | h <;> simp [h]
    constructor
    · intro hn hw
      rw [GenerateOptions_eq GetTag p c hc, if_neg ha, if_neg hb, if_pos hn, hw]
      exact ⟨_, rfl⟩
    · intro hn hg
      have hn' : c.Network ≠ "ws" := by rw [hn]; decide
      rw [GenerateOptions_eq GetTag p c hc, if_neg ha, if_neg hb, if_neg hn', if_pos hn, hg]
      exact ⟨_, rfl⟩

/-- Witness for C10: fingerprint "chrome" on a build without `with_utls`, websocket
without `ws-opts`: the error is the missing-build-feature one. -/
theorem first_failing_check_wins_witness :
    ∃ q, GenerateOptions (fun _ => false)
      (fresh { plainOptions with ClientFingerPrint := "chrome", Network := "ws" }) =
      .ok (.error "uTLS is not included in this build, rebuild with -tags with_utls", q) :=
  (first_failing_check_wins (fun _ => false)
    (fresh { plainOptions with ClientFingerPrint := "chrome", Network := "ws" })
    { plainOptions with ClientFingerPrint := "chrome", Network := "ws" } rfl).2.1
    rfl rfl (by decide) rfl


/-! ## Go maps as association lists -/

theorem lookup_cons {β : Type} (k k1 : String) (v1 : β) (t : List (String × β)) :
    List.lookup k ((k1, v1) :: t) = if k = k1 then some v1 else List.lookup k t := by
  by_cases h : k = k1
  · have hb : (k == k1) = true := by simp [h]
    simp only [List.lookup, hb, if_pos h]
  · have hb : (k == k1) = false := by simp [h]
    simp only [List.lookup, hb, if_neg h]

theorem lookup_entriesSet {β : Type} (k k' : String) (v : β) (l : List (String × β)) :
    List.lookup k (entriesSet k' v l) = if k = k' then some v else List.lookup k l := by
  induction l with
  | nil =>
    simp only [entriesSet, lookup_cons]
  | cons e t ih =>
    obtain ⟨k1, v1⟩ := e
    by_cases h1 : k1 = k'
    · subst h1
      simp only [entriesSet, if_true, lookup_cons]
      split_ifs <;> rfl
    · simp only [entriesSet, if_neg h1, lookup_cons, ih]
      by_cases h : k = k1
      · have h' : ¬ k = k' := by rw [h]; exact h1
        simp only [if_pos h, if_neg h']
      · simp only [if_neg h]

theorem lookup_eq_none_iff_not_mem {β : Type} (k : String) (l : List (String × β)) :
    List.lookup k l = none ↔ k ∉ l.map Prod.fst := by
  induction l with
  | nil => simp [List.lookup]
  | cons e t ih =>
    obtain ⟨k1, v1⟩ := e
    rw [lookup_cons]
    by_cases h : k = k1
    · simp [h]
    · simp [h, ih]

theorem lookup_copyHeaders_of_not_mem (k : String) (l : List (String × String))
    (dst : List (String × List String)) (h : k ∉ l.map Prod.fst) :
    List.lookup k (copyHeaders l dst) = List.lookup k dst := by
  induction l generalizing dst with
  | nil => rfl
  | cons e t ih =>
    obtain ⟨k1, v1⟩ := e
    simp only [List.map_cons, List.mem_cons, not_or] at h
    have : copyHeaders ((k1, v1) :: t) dst = copyHeaders t (entriesSet k1 [v1] dst) := rfl
    rw [this, ih _ h.2, lookup_entriesSet, if_neg h.1]

theorem lookup_copyHeaders (k : String) (l : List (String × String))
    (dst : List (String × List String)) (hl : (l.map Prod.fst).Nodup) :
    List.lookup k (copyHeaders l dst) =
      match List.lookup k l with
      | some v => some [v]
      | none => List.lookup k dst := by
  induction l generalizing dst with
  | nil => rfl
  | cons e t ih =>
    obtain ⟨k1, v1⟩ := e
    simp only [List.map_cons, List.nodup_cons] at hl
    have hcp : copyHeaders ((k1, v1) :: t) dst = copyHeaders t (entriesSet k1 [v1] dst) := rfl
    by_cases h : k = k1
    · subst h
      rw [hcp, lookup_copyHeaders_of_not_mem k t _ hl.1, lookup_entriesSet, lookup_cons]
      simp only [if_true]
    · rw [hcp, ih _ hl.2, lookup_entriesSet, if_neg h, lookup_cons, if_neg h]

/-- The headers written on the websocket branch, read key by key: a configured key maps to
the one-element list of its value, `Host` falls back to the TLS server name, and no other
key is present. -/
theorem lookup_wsHeaders (k : String) (l : List (String × String)) (serverName : String)
    (hl : (l.map Prod.fst).Nodup) :
    List.lookup k (wsHeaders l serverName) =
      match List.lookup k l with
      | some v => some [v]
      | none => if k = "Host" then some [serverName] else none := by
  have hcopy := fun k' => lookup_copyHeaders k' l [] hl
  unfold wsHeaders
  cases hH : List.lookup "Host" l with
  | some h =>
    have h1 : List.lookup "Host" (copyHeaders l []) = some [h] := by rw [hcopy, hH]
    have h2 : ¬ ((List.lookup "Host" (copyHeaders l [])).getD [] = []) := by simp [h1]
    rw [if_neg h2, hcopy k]
    cases hk : List.lookup k l with
    | some v => rfl
    | none =>
      have : k ≠ "Host" := by
        intro he
        rw [he, hH] at hk
        cases hk
      simp [this, List.lookup]
  | none =>
    have h1 : List.lookup "Host" (copyHeaders l []) = none := by
      rw [hcopy, hH]
      rfl
    have h2 : (List.lookup "Host" (copyHeaders l [])).getD [] = [] := by simp [h1]
    rw [if_pos h2, lookup_entriesSet, hcopy k]
    by_cases hk : k = "Host"
    · rw [if_pos hk, hk, hH]
      simp
    · rw [if_neg hk]
      cases List.lookup k l <;> simp [hk, List.lookup]


/-! ## Shape of a returned descriptor -/

theorem applyIPVersion_Rest {ρ : Type} (v : String) (o : Outbound ρ) :
    (applyIPVersion v o).TrojanOptions.DialerOptions.Rest = o.TrojanOptions.DialerOptions.Rest := by
  unfold applyIPVersion
  split_ifs <;> rfl

theorem applyIPVersion_DomainStrategy {ρ : Type} (v : String) (o : Outbound ρ) :
    (applyIPVersion v o).TrojanOptions.DialerOptions.DomainStrategy =
      if v = "ipv4" then .UseIPv4
      else if v = "ipv6" then .UseIPv6
      else if v = "ipv4-prefer" then .PreferIPv4
      else if v = "ipv6-prefer" then .PreferIPv6
      else o.TrojanOptions.DialerOptions.DomainStrategy := by
  unfold applyIPVersion
  by_cases h0 : v = "dual"
  · subst h0
    rw [if_pos rfl, if_neg (by decide), if_neg (by decide), if_neg (by decide),
      if_neg (by decide)]
  · rw [if_neg h0]
    split_ifs <;> rfl

theorem applyIPVersion_ServerOptions {ρ : Type} (v : String) (o : Outbound ρ) :
    (applyIPVersion v o).TrojanOptions.ServerOptions = o.TrojanOptions.ServerOptions := by
  unfold applyIPVersion
  split_ifs <;> rfl

theorem applyIPVersion_Password {ρ : Type} (v : String) (o : Outbound ρ) :
    (applyIPVersion v o).TrojanOptions.Password = o.TrojanOptions.Password := by
  unfold applyIPVersion
  split_ifs <;> rfl

/-- Every descriptor `GenerateOptions` returns is the descriptor built before the
transport switch, given the transport selected by `Network`, with the `IPVersion` switch
applied. -/
theorem GenerateOptions_ok_cases {ρ : Type} (GetTag : String → Bool) (p q : ProxyTrojan ρ)
    (c : proxyClashTrojan) (o : Outbound ρ) (hc : p.clashOptions = some c)
    (h : GenerateOptions GetTag p = .ok (.ok o, q)) :
    (c.Network = "ws" ∧ ∃ ws e l, c.WSOptions = some ws ∧ ws.Headers = some (e :: l) ∧
      o = applyIPVersion c.IPVersion (withTransport (beforeTransport p c)
        (wsTransport ws (some (wsHeaders (e :: l) (tlsOf c).ServerName))))) ∨
    (c.Network ≠ "ws" ∧ c.Network = "grpc" ∧ ∃ g, c.GrpcOptions = some g ∧
      o = applyIPVersion c.IPVersion (withTransport (beforeTransport p c) (grpcTransport g))) ∨
    (c.Network ≠ "ws" ∧ c.Network ≠ "grpc" ∧
      o = applyIPVersion c.IPVersion (beforeTransport p c)) := by
  rw [GenerateOptions_eq GetTag p c hc] at h
  split_ifs at h with h1 h2 h3 h4
  · simp at h
  · simp at h
  · cases hw : c.WSOptions with
    | none => simp [hw] at h
    | some ws =>
      rw [hw] at h
      dsimp only at h
      rcases hh : ws.Headers with _ | _ | ⟨e, l⟩
      · simp [hh] at h
      · simp [hh] at h
      · rw [hh] at h
        simp only [Except.ok.injEq, Prod.mk.injEq] at h
        exact Or.inl ⟨h3, ws, e, l, rfl, hh, h.1.symm⟩
  · cases hg : c.GrpcOptions with
    | none => simp [hg] at h
    | some g =>
      rw [hg] at h
      simp only [Except.ok.injEq, Prod.mk.injEq] at h
      exact Or.inr (Or.inl ⟨h3, h4, g, rfl, h.1.symm⟩)
  · simp only [Except.ok.injEq, Prod.mk.injEq] at h
    exact Or.inr (Or.inr ⟨h3, h4, h.1.symm⟩)

/-- The websocket branch returns a descriptor when the earlier checks pass and the
`headers` mapping has an entry. -/
theorem GenerateOptions_ws_ok {ρ : Type} (GetTag : String → Bool) (p : ProxyTrojan ρ)
    (c : proxyClashTrojan) (ws : proxyClashTrojanWSOptions) (e : String × String)
    (l : List (String × String)) (hc : p.clashOptions = some c)
    (hflow : c.Flow = "") (hshow : c.FlowShow = false)
    (hfp : c.ClientFingerPrint = "" ∨ GetTag "with_utls" = true) (hn : c.Network = "ws")
    (hw : c.WSOptions = some ws) (hh : ws.Headers = some (e :: l)) :
    GenerateOptions GetTag p =
      .ok (.ok (applyIPVersion c.IPVersion (withTransport (beforeTransport p c)
        (wsTransport ws (some (wsHeaders (e :: l) (tlsOf c).ServerName))))), memoised p c) := by
  have h1 : ¬ (c.Flow ≠ "" ∨ c.FlowShow = true) := by simp [hflow, hshow]
  have h2 : ¬ (c.ClientFingerPrint ≠ "" ∧ GetTag "with_utls" = false) := by
    rcases hfp with h | h <;> simp [h]
  rw [GenerateOptions_eq GetTag p c hc, if_neg h1, if_neg h2, if_pos hn, hw]
  dsimp only
  rw [hh]


/-! ## Claims about the returned descriptor -/

/-- C11: in every descriptor `GenerateOptions` returns, the transport is a websocket
transport exactly when `network` is "ws", a gRPC transport exactly when it is "grpc" (its
service name being that of `grpc-opts`), and absent exactly for every other value; a
websocket transport has empty gRPC options and a gRPC transport empty websocket options. -/
theorem transport_matches_network {ρ : Type} (GetTag : String → Bool) (p q : ProxyTrojan ρ)
    (c : proxyClashTrojan) (o : Outbound ρ) (hc : p.clashOptions = some c)
    (h : GenerateOptions GetTag p = .ok (.ok o, q)) :
    (c.Network = "ws" ↔ ∃ tr, o.TrojanOptions.Transport = some tr ∧
      tr.Type_ = V2RayTransportTypeWebsocket) ∧
    (c.Network = "grpc" ↔ ∃ tr, o.TrojanOptions.Transport = some tr ∧
      tr.Type_ = V2RayTransportTypeGRPC) ∧
    ((c.Network ≠ "ws" ∧ c.Network ≠ "grpc") ↔ o.TrojanOptions.Transport = none) ∧
    (∀ tr, o.TrojanOptions.Transport = some tr → tr.Type_ = V2RayTransportTypeWebsocket →
      tr.GRPCOptions = { ServiceName := "" }) ∧
    (∀ tr, o.TrojanOptions.Transport = some tr → tr.Type_ = V2RayTransportTypeGRPC →
      tr.WebsocketOptions =
        { Path := "", Headers := none, MaxEarlyData := 0, EarlyDataHeaderName := "" } ∧
      ∃ g, c.GrpcOptions = some g ∧ tr.GRPCOptions.ServiceName = g.ServiceName) := by
  have hne : V2RayTransportTypeWebsocket ≠ V2RayTransportTypeGRPC := by decide
  have hne' : ("grpc" : String) ≠ "ws" := by decide
  rcases GenerateOptions_ok_cases GetTag p q c o hc h with
    ⟨hn, ws, e, l, -, -, ho⟩ | ⟨hn, hg, g, hgo, ho⟩ | ⟨hn, hg, ho⟩
  · have htr : o.TrojanOptions.Transport =
        some (wsTransport ws (some (wsHeaders (e :: l) (tlsOf c).ServerName))) := by
      rw [ho, applyIPVersion_Transport]
      rfl
    have hng : c.Network ≠ "grpc" := by rw [hn]; exact hne'.symm
    refine ⟨⟨fun _ => ⟨_, htr, rfl⟩, fun _ => hn⟩, ⟨fun hx => absurd hx hng, ?_⟩,
      ⟨fun hx => absurd hn hx.1, fun hx => ?_⟩, ?_, ?_⟩
    · rintro ⟨tr, h1, h2⟩
      rw [htr] at h1
      cases h1
      exact absurd h2 hne
    · rw [htr] at hx
      cases hx
    · intro tr h1 _
      rw [htr] at h1
      cases h1
      rfl
    · intro tr h1 h2
      rw [htr] at h1
      cases h1
      exact absurd h2 hne
  · have htr : o.TrojanOptions.Transport = some (grpcTransport g) := by
      rw [ho, applyIPVersion_Transport]
      rfl
    refine ⟨⟨fun hx => absurd hx hn, ?_⟩, ⟨fun _ => ⟨_, htr, rfl⟩, fun _ => hg⟩,
      ⟨fun hx => absurd hg hx.2, fun hx => ?_⟩, ?_, ?_⟩
    · rintro ⟨tr, h1, h2⟩
      rw [htr] at h1
      cases h1
      exact absurd h2.symm hne
    · rw [htr] at hx
      cases hx
    · intro tr h1 h2
      rw [htr] at h1
      cases h1
      exact absurd h2.symm hne
    · intro tr h1 _
      rw [htr] at h1
      cases h1
      exact ⟨rfl, g, hgo, rfl⟩
  · have htr : o.TrojanOptions.Transport = none := by
      rw [ho, applyIPVersion_Transport]
      rfl
    refine ⟨⟨fun hx => absurd hx hn, ?_⟩, ⟨fun hx => absurd hx hg, ?_⟩,
      ⟨fun _ => htr, fun _ => ⟨hn, hg⟩⟩, ?_, ?_⟩
    · rintro ⟨tr, h1, -⟩
      rw [htr] at h1
      cases h1
    · rintro ⟨tr, h1, -⟩
      rw [htr] at h1
      cases h1
    · intro tr h1
      rw [htr] at h1
      cases h1
    · intro tr h1
      rw [htr] at h1
      cases h1

/-- Witness for C11: a gRPC entry gets a gRPC transport with its service name, and a plain
entry gets no transport. -/
theorem transport_matches_network_witness :
    (∃ o q tr, GenerateOptions (fun _ => false) (fresh grpcOptions) = .ok (.ok o, q) ∧
      o.TrojanOptions.Transport = some tr ∧ tr.Type_ = "grpc" ∧
      tr.GRPCOptions.ServiceName = "svc") ∧
    ∃ o q, GenerateOptions (fun _ => false) (fresh plainOptions) = .ok (.ok o, q) ∧
      o.TrojanOptions.Transport = none :=
  have h1 := transport_matches_network (fun _ => false) (fresh grpcOptions) _ grpcOptions _
    rfl rfl
  have h2 := transport_matches_network (fun _ => false) (fresh plainOptions) _ plainOptions _
    rfl rfl
  ⟨(h1.2.1.1 rfl).elim fun tr htr =>
      ⟨_, _, tr, rfl, htr.1, htr.2,
        ((h1.2.2.2.2 tr htr.1 htr.2).2).elim fun g hg => by
          rw [hg.2]
          have hgo : grpcOptions.GrpcOptions = some { ServiceName := "svc" } := rfl
          rw [hgo] at hg
          cases hg.1
          rfl⟩,
    _, _, rfl, h2.2.2.1.1 ⟨by decide, by decide⟩⟩

/-- C12: in every descriptor `GenerateOptions` returns, the TLS block is present with
`Enabled = true`, and its server name is the raw `sni` when that is non-empty and the
`server` otherwise. -/
theorem tls_server_name {ρ : Type} (GetTag : String → Bool) (p q : ProxyTrojan ρ)
    (c : proxyClashTrojan) (o : Outbound ρ) (hc : p.clashOptions = some c)
    (h : GenerateOptions GetTag p = .ok (.ok o, q)) :
    ∃ tls, o.TrojanOptions.TLS = some tls ∧ tls.Enabled = true ∧
      (c.ServerName ≠ "" → tls.ServerName = c.ServerName) ∧
      (c.ServerName = "" → tls.ServerName = c.Server) := by
  refine ⟨tlsOf c, (GenerateOptions_ok_inv GetTag p q c o hc h).2.2.2.2, rfl, ?_, ?_⟩
  · intro hs
    simp [tlsOf, hs]
  · intro hs
    simp [tlsOf, hs]

/-- Witness for C12 at the inputs of the spec's property P3: server "a.com" with `sni`
empty, and with `sni` "b.com". -/
theorem tls_server_name_witness :
    (∃ o q tls, GenerateOptions (fun _ => false)
        (fresh { plainOptions with Server := "a.com" }) = .ok (.ok o, q) ∧
      o.TrojanOptions.TLS = some tls ∧ tls.Enabled = true ∧ tls.ServerName = "a.com") ∧
    ∃ o q tls, GenerateOptions (fun _ => false)
        (fresh { plainOptions with Server := "a.com", ServerName := "b.com" }) = .ok (.ok o, q) ∧
      o.TrojanOptions.TLS = some tls ∧ tls.Enabled = true ∧ tls.ServerName = "b.com" :=
  ⟨(tls_server_name (fun _ => false) (fresh { plainOptions with Server := "a.com" }) _
      { plainOptions with Server := "a.com" } _ rfl rfl).elim
      fun tls ht => ⟨_, _, tls, rfl, ht.1, ht.2.1, ht.2.2.2 rfl⟩,
   (tls_server_name (fun _ => false)
      (fresh { plainOptions with Server := "a.com", ServerName := "b.com" }) _
      { plainOptions with Server := "a.com", ServerName := "b.com" } _ rfl rfl).elim
      fun tls ht => ⟨_, _, tls, rfl, ht.1, ht.2.1, ht.2.2.1 (by decide)⟩⟩


/-- C13: a websocket entry that passes the earlier checks and whose headers (a mapping,
so with distinct keys) bind `Host` to `h` gets a descriptor whose websocket headers bind
`Host` to exactly `[h]`, whatever `server` and `sni` are. -/
theorem explicit_Host_is_kept {ρ : Type} (GetTag : String → Bool) (p : ProxyTrojan ρ)
    (c : proxyClashTrojan) (ws : proxyClashTrojanWSOptions) (l : List (String × String))
    (h : String) (hc : p.clashOptions = some c) (hflow : c.Flow = "")
    (hshow : c.FlowShow = false)
    (hfp : c.ClientFingerPrint = "" ∨ GetTag "with_utls" = true) (hn : c.Network = "ws")
    (hw : c.WSOptions = some ws) (hh : ws.Headers = some l)
    (hkeys : (l.map Prod.fst).Nodup) (hHost : List.lookup "Host" l = some h) :
    ∃ o q tr hs, GenerateOptions GetTag p = .ok (.ok o, q) ∧
      o.TrojanOptions.Transport = some tr ∧ tr.WebsocketOptions.Headers = some hs ∧
      List.lookup "Host" hs = some [h] ∧ mapGet tr.WebsocketOptions.Headers "Host" = [h] := by
  cases l with
  | nil => simp [List.lookup] at hHost
  | cons e l =>
    have hlk : List.lookup "Host" (wsHeaders (e :: l) (tlsOf c).ServerName) = some [h] := by
      rw [lookup_wsHeaders "Host" (e :: l) _ hkeys, hHost]
    refine ⟨_, _, wsTransport ws (some (wsHeaders (e :: l) (tlsOf c).ServerName)), _,
      GenerateOptions_ws_ok GetTag p c ws e l hc hflow hshow hfp hn hw hh, ?_, rfl, hlk, ?_⟩
    · rw [applyIPVersion_Transport]
      rfl
    · simp only [wsTransport, mapGet, hlk, Option.getD_some]

/-- Witness for C13 at the input of the spec's property P7: headers `Host: custom.com` on
server "a.com". -/
theorem explicit_Host_is_kept_witness :
    ∃ o q tr hs, GenerateOptions (fun _ => false) (fresh customHostOptions) = .ok (.ok o, q) ∧
      o.TrojanOptions.Transport = some tr ∧ tr.WebsocketOptions.Headers = some hs ∧
      List.lookup "Host" hs = some ["custom.com"] ∧
      mapGet tr.WebsocketOptions.Headers "Host" = ["custom.com"] :=
  explicit_Host_is_kept (fun _ => false) (fresh customHostOptions) customHostOptions
    { Path := "/x", Headers := some [("Host", "custom.com")], MaxEarlyData := 0,
      EarlyDataHeaderName := "" }
    [("Host", "custom.com")] "custom.com" rfl rfl rfl (Or.inl rfl) rfl rfl rfl
    (by decide) rfl

/-- C14: in every descriptor `GenerateOptions` returns, the network restriction is
TCP-only exactly when the raw `udp` flag is false and absent when it is true; it is a
function of that flag alone. -/
theorem network_restriction {ρ : Type} (GetTag : String → Bool) (p q : ProxyTrojan ρ)
    (c : proxyClashTrojan) (o : Outbound ρ) (hc : p.clashOptions = some c)
    (h : GenerateOptions GetTag p = .ok (.ok o, q)) :
    (o.TrojanOptions.Network = NetworkTCP ↔ c.UDP = false) ∧
    (c.UDP = true → o.TrojanOptions.Network = "") ∧
    o.TrojanOptions.Network = (if c.UDP = false then NetworkTCP else "") := by
  have hN : o.TrojanOptions.Network = (if c.UDP = false then NetworkTCP else "") := by
    rcases GenerateOptions_ok_cases GetTag p q c o hc h with
      ⟨-, ws, e, l, -, -, ho⟩ | ⟨-, -, g, -, ho⟩ | ⟨-, -, ho⟩ <;>
    · rw [ho, applyIPVersion_Network]
      rfl
  refine ⟨?_, ?_, hN⟩
  · rw [hN]
    cases c.UDP
    · simp
    · have : ("" : String) ≠ NetworkTCP := by decide
      simp [this]
  · intro hu
    rw [hN, hu]
    rfl

/-- Witness for C14 at the inputs of the spec's property P8. -/
theorem network_restriction_witness :
    (∃ o q, GenerateOptions (fun _ => false) (fresh { plainOptions with UDP := false }) =
      .ok (.ok o, q) ∧ o.TrojanOptions.Network = "tcp") ∧
    ∃ o q, GenerateOptions (fun _ => false) (fresh { plainOptions with UDP := true }) =
      .ok (.ok o, q) ∧ o.TrojanOptions.Network = "" :=
  ⟨⟨_, _, rfl, (network_restriction (fun _ => false)
      (fresh { plainOptions with UDP := false }) _ { plainOptions with UDP := false } _
      rfl rfl).1.2 rfl⟩,
   ⟨_, _, rfl, (network_restriction (fun _ => false)
      (fresh { plainOptions with UDP := true }) _ { plainOptions with UDP := true } _
      rfl rfl).2.1 rfl⟩⟩

/-- C15: in every descriptor `GenerateOptions` returns, the dialer policy's domain
strategy is IPv4-only for `ip_version` "ipv4", IPv6-only for "ipv6", prefer-IPv4 for
"ipv4-prefer", prefer-IPv6 for "ipv6-prefer", whatever the ambient strategy was, and the
ambient policy's own strategy for "dual" and for every other string. -/
theorem domain_strategy_mapping {ρ : Type} (GetTag : String → Bool) (p q : ProxyTrojan ρ)
    (c : proxyClashTrojan) (o : Outbound ρ) (hc : p.clashOptions = some c)
    (h : GenerateOptions GetTag p = .ok (.ok o, q)) :
    (c.IPVersion = "ipv4" → o.TrojanOptions.DialerOptions.DomainStrategy = .UseIPv4) ∧
    (c.IPVersion = "ipv6" → o.TrojanOptions.DialerOptions.DomainStrategy = .UseIPv6) ∧
    (c.IPVersion = "ipv4-prefer" →
      o.TrojanOptions.DialerOptions.DomainStrategy = .PreferIPv4) ∧
    (c.IPVersion = "ipv6-prefer" →
      o.TrojanOptions.DialerOptions.DomainStrategy = .PreferIPv6) ∧
    (c.IPVersion ≠ "ipv4" → c.IPVersion ≠ "ipv6" → c.IPVersion ≠ "ipv4-prefer" →
      c.IPVersion ≠ "ipv6-prefer" →
      o.TrojanOptions.DialerOptions.DomainStrategy = p.dialerOptions.DomainStrategy) := by
  have hD : o.TrojanOptions.DialerOptions.DomainStrategy =
      if c.IPVersion = "ipv4" then .UseIPv4
      else if c.IPVersion = "ipv6" then .UseIPv6
      else if c.IPVersion = "ipv4-prefer" then .PreferIPv4
      else if c.IPVersion = "ipv6-prefer" then .PreferIPv6
      else p.dialerOptions.DomainStrategy := by
    rcases GenerateOptions_ok_cases GetTag p q c o hc h with
      ⟨-, ws, e, l, -, -, ho⟩ | ⟨-, -, g, -, ho⟩ | ⟨-, -, ho⟩ <;>
    · rw [ho, applyIPVersion_DomainStrategy]
      rfl
  refine ⟨?_, ?_, ?_, ?_, ?_⟩
  · intro hv
    rw [hD, if_pos hv]
  · intro hv
    rw [hD, hv]
    rfl
  · intro hv
    rw [hD, hv]
    rfl
  · intro hv
    rw [hD, hv]
    rfl
  · intro h1 h2 h3 h4
    rw [hD, if_neg h1, if_neg h2, if_neg h3, if_neg h4]

/-- Witness for C15: with an ambient prefer-IPv6 policy, "ipv4" forces IPv4-only while
"dual" and the empty string keep prefer-IPv6. -/
theorem domain_strategy_mapping_witness :
    (∃ o q, GenerateOptions (fun _ => false)
        (SetDialerOptions (fresh { plainOptions with IPVersion := "ipv4" })
          { DomainStrategy := .PreferIPv6, Rest := () }) = .ok (.ok o, q) ∧
      o.TrojanOptions.DialerOptions.DomainStrategy = .UseIPv4) ∧
    (∃ o q, GenerateOptions (fun _ => false)
        (SetDialerOptions (fresh { plainOptions with IPVersion := "dual" })
          { DomainStrategy := .PreferIPv6, Rest := () }) = .ok (.ok o, q) ∧
      o.TrojanOptions.DialerOptions.DomainStrategy = .PreferIPv6) ∧
    ∃ o q, GenerateOptions (fun _ => false)
        (SetDialerOptions (fresh plainOptions)
          { DomainStrategy := .PreferIPv6, Rest := () }) = .ok (.ok o, q) ∧
      o.TrojanOptions.DialerOptions.DomainStrategy = .PreferIPv6 :=
  ⟨⟨_, _, rfl, (domain_strategy_mapping (fun _ => false)
      (SetDialerOptions (fresh { plainOptions with IPVersion := "ipv4" })
        { DomainStrategy := .PreferIPv6, Rest := () }) _
      { plainOptions with IPVersion := "ipv4" } _ rfl rfl).1 rfl⟩,
   ⟨_, _, rfl, (domain_strategy_mapping (fun _ => false)
      (SetDialerOptions (fresh { plainOptions with IPVersion := "dual" })
        { DomainStrategy := .PreferIPv6, Rest := () }) _
      { plainOptions with IPVersion := "dual" } _ rfl rfl).2.2.2.2
      (by decide) (by decide) (by decide) (by decide)⟩,
   ⟨_, _, rfl, (domain_strategy_mapping (fun _ => false)
      (SetDialerOptions (fresh plainOptions) { DomainStrategy := .PreferIPv6, Rest := () }) _
      plainOptions _ rfl rfl).2.2.2.2
      (by decide) (by decide) (by decide) (by decide)⟩⟩


/-! ## Repeated calls and re-binding -/

theorem resolvedTag_memoised {ρ : Type} (p : ProxyTrojan ρ) (c : proxyClashTrojan) :
    resolvedTag (memoised p c) c = resolvedTag p c :=
  resolvedTag_of_memoised (memoised p c) c (resolvedTag_ne_empty p c)

theorem memoised_memoised {ρ : Type} (p : ProxyTrojan ρ) (c : proxyClashTrojan) :
    memoised (memoised p c) c = memoised p c :=
  memoised_of_memoised (memoised p c) c (resolvedTag_ne_empty p c)

theorem beforeTransport_memoised {ρ : Type} (p : ProxyTrojan ρ) (c : proxyClashTrojan) :
    beforeTransport (memoised p c) c = beforeTransport p c := by
  unfold beforeTransport
  rw [resolvedTag_memoised]
  rfl

/-- Memoising the tag changes neither the value nor the fault `GenerateOptions` ends with;
past the flow check it does not change the translator the call leaves either. -/
theorem GenerateOptions_memoised {ρ : Type} (GetTag : String → Bool) (p : ProxyTrojan ρ)
    (c : proxyClashTrojan) (hc : p.clashOptions = some c) :
    Except.map Prod.fst (GenerateOptions GetTag (memoised p c)) =
      Except.map Prod.fst (GenerateOptions GetTag p) ∧
    (¬ (c.Flow ≠ "" ∨ c.FlowShow = true) →
      GenerateOptions GetTag (memoised p c) = GenerateOptions GetTag p) := by
  have hc' : (memoised p c).clashOptions = some c := hc
  rw [GenerateOptions_eq GetTag p c hc, GenerateOptions_eq GetTag (memoised p c) c hc',
    memoised_memoised, beforeTransport_memoised]
  by_cases hf : c.Flow ≠ "" ∨ c.FlowShow = true
  · rw [if_pos hf, if_pos hf]
    exact ⟨rfl, fun hx => absurd hf hx⟩
  · rw [if_neg hf, if_neg hf]
    exact ⟨rfl, fun _ => rfl⟩

/-- C16: a second call of `GenerateOptions`, made on the translator as the first call left
it and with the same registry, returns the same error or the same descriptor and leaves
the translator as it is; and a tag memoised by `Tag` beforehand does not change what
`GenerateOptions` returns. -/
theorem GenerateOptions_idempotent {ρ : Type} (GetTag : String → Bool) (p : ProxyTrojan ρ) :
    (∀ (r : Except String (Outbound ρ)) (p1 : ProxyTrojan ρ),
      GenerateOptions GetTag p = .ok (r, p1) → GenerateOptions GetTag p1 = .ok (r, p1)) ∧
    (∀ (t : String) (p' : ProxyTrojan ρ), Tag p = .ok (t, p') →
      Except.map Prod.fst (GenerateOptions GetTag p') =
        Except.map Prod.fst (GenerateOptions GetTag p)) := by
  constructor
  · intro r p1 h
    cases hc : p.clashOptions with
    | none => simp [GenerateOptions_unbound GetTag p hc] at h
    | some c =>
      by_cases hf : c.Flow ≠ "" ∨ c.FlowShow = true
      · have h' := h
        rw [GenerateOptions_eq GetTag p c hc, if_pos hf] at h'
        simp only [Except.ok.injEq, Prod.mk.injEq] at h'
        rw [← h'.2]
        rw [← h'.2] at h
        exact h
      · rcases GenerateOptions_state GetTag p p1 c r hc h with h1 | h1
        · rw [h1]
          rw [h1] at h
          exact h
        · rw [h1, (GenerateOptions_memoised GetTag p c hc).2 hf, ← h1]
          exact h
  · intro t p' ht
    cases hc : p.clashOptions with
    | none =>
      have hp : p' = p := by
        by_cases h1 : p.tag = ""
        · simp [Tag, h1, hc] at ht
        · rw [Tag_of_memoised p h1] at ht
          simp only [Except.ok.injEq, Prod.mk.injEq] at ht
          exact ht.2.symm
      rw [hp]
    | some c =>
      rw [Tag_of_bound p c hc] at ht
      simp only [Except.ok.injEq, Prod.mk.injEq] at ht
      rw [← ht.2]
      exact (GenerateOptions_memoised GetTag p c hc).1

/-- Witness for C16: the websocket entry with an explicit `Host` header yields the same
descriptor on the second call, and the entry whose `ws-opts` is missing the same error. -/
theorem GenerateOptions_idempotent_witness :
    (∃ o p1, GenerateOptions (fun _ => false) (fresh customHostOptions) = .ok (.ok o, p1) ∧
      GenerateOptions (fun _ => false) p1 = .ok (.ok o, p1)) ∧
    ∃ p1, GenerateOptions (fun _ => false) (fresh { plainOptions with Network := "ws" }) =
        .ok (.error "missing ws-opts", p1) ∧
      GenerateOptions (fun _ => false) p1 = .ok (.error "missing ws-opts", p1) :=
  ⟨⟨_, _, rfl,
      (GenerateOptions_idempotent (fun _ => false) (fresh customHostOptions)).1 _ _ rfl⟩,
   ⟨_, rfl, (GenerateOptions_idempotent (fun _ => false)
      (fresh { plainOptions with Network := "ws" })).1 _ _ rfl⟩⟩

/-- C17: `SetClashOptions` returns true exactly for a Trojan raw-options record, whatever
its field contents, and then binds that record, so that `GetClashType` and the descriptors
of `GenerateOptions` read it; for a value of any other shape it returns false and leaves
raw options, memoised tag and dialer policy as they were. -/
theorem SetClashOptions_narrows {ρ : Type} (p : ProxyTrojan ρ) (c : proxyClashTrojan)
    (typeName : String) :
    SetClashOptions p (.trojan c) =
      (true, { tag := p.tag, clashOptions := some c, dialerOptions := p.dialerOptions }) ∧
    GetClashType (SetClashOptions p (.trojan c)).2 = .ok c.Type_ ∧
    (∀ (GetTag : String → Bool) (o : Outbound ρ) (q : ProxyTrojan ρ),
      GenerateOptions GetTag (SetClashOptions p (.trojan c)).2 = .ok (.ok o, q) →
      o.TrojanOptions.ServerOptions = { Server := c.Server, ServerPort := c.ServerPort } ∧
      o.TrojanOptions.Password = c.Password) ∧
    SetClashOptions p (.other typeName) = (false, p) ∧
    (∀ options : AnyOptions,
      (SetClashOptions p options).1 = true ↔ ∃ c', options = .trojan c') := by
  refine ⟨rfl, rfl, ?_, rfl, ?_⟩
  · intro GetTag o q h
    have hc : (SetClashOptions p (.trojan c)).2.clashOptions = some c := rfl
    rcases GenerateOptions_ok_cases GetTag _ q c o hc h with
      ⟨-, ws, e, l, -, -, ho⟩ | ⟨-, -, g, -, ho⟩ | ⟨-, -, ho⟩ <;>
    · rw [ho, applyIPVersion_ServerOptions, applyIPVersion_Password]
      exact ⟨rfl, rfl⟩
  · intro options
    cases options with
    | trojan c' => simp [SetClashOptions]
    | other n => simp [SetClashOptions]

/-- Witness for C17: a Trojan record with `flow` set, and one selecting "ws" without
`ws-opts`, are accepted and bound; a value of another type is refused. -/
theorem SetClashOptions_narrows_witness :
    (SetClashOptions (fresh plainOptions)
      (.trojan { plainOptions with Flow := "xtls-rprx-direct", Type_ := "trojan-flow" })).1
      = true ∧
    GetClashType (SetClashOptions (fresh plainOptions)
      (.trojan { plainOptions with Flow := "xtls-rprx-direct", Type_ := "trojan-flow" })).2
      = .ok "trojan-flow" ∧
    (SetClashOptions (fresh plainOptions) (.trojan { plainOptions with Network := "ws" })).1
      = true ∧
    SetClashOptions reboundTranslator (.other "proxyClashVMess") = (false, reboundTranslator) :=
  ⟨congrArg Prod.fst (SetClashOptions_narrows (fresh plainOptions)
      { plainOptions with Flow := "xtls-rprx-direct", Type_ := "trojan-flow" } "").1,
   (SetClashOptions_narrows (fresh plainOptions)
      { plainOptions with Flow := "xtls-rprx-direct", Type_ := "trojan-flow" } "").2.1,
   congrArg Prod.fst (SetClashOptions_narrows (fresh plainOptions)
      { plainOptions with Network := "ws" } "").1,
   (SetClashOptions_narrows reboundTranslator plainOptions "proxyClashVMess").2.2.2.1⟩


/-! ## Websocket headers, dialer policy and early data -/

theorem keys_entriesSet {β : Type} (k : String) (v : β) (l : List (String × β)) :
    (entriesSet k v l).map Prod.fst =
      if k ∈ l.map Prod.fst then l.map Prod.fst else l.map Prod.fst ++ [k] := by
  induction l with
  | nil => simp [entriesSet]
  | cons e t ih =>
    obtain ⟨k1, v1⟩ := e
    by_cases h1 : k1 = k
    · subst h1
      simp [entriesSet]
    · have h1' : ¬ k = k1 := fun hx => h1 hx.symm
      simp only [entriesSet, if_neg h1, List.map_cons, ih, List.mem_cons, h1', false_or]
      split_ifs <;> simp

theorem nodup_keys_entriesSet {β : Type} (k : String) (v : β) (l : List (String × β))
    (h : (l.map Prod.fst).Nodup) : ((entriesSet k v l).map Prod.fst).Nodup := by
  rw [keys_entriesSet]
  split_ifs with hk
  · exact h
  · rw [List.nodup_append]
    refine ⟨h, List.nodup_singleton k, ?_⟩
    intro a ha hb
    rw [List.mem_singleton] at hb
    rw [hb] at ha
    exact hk ha

theorem nodup_keys_copyHeaders (l : List (String × String)) (dst : List (String × List String))
    (h : (dst.map Prod.fst).Nodup) : ((copyHeaders l dst).map Prod.fst).Nodup := by
  induction l generalizing dst with
  | nil => exact h
  | cons e t ih =>
    have : copyHeaders (e :: t) dst = copyHeaders t (entriesSet e.1 [e.2] dst) := rfl
    rw [this]
    exact ih _ (nodup_keys_entriesSet _ _ _ h)

theorem nodup_keys_wsHeaders (l : List (String × String)) (serverName : String) :
    ((wsHeaders l serverName).map Prod.fst).Nodup := by
  have h := nodup_keys_copyHeaders l [] List.nodup_nil
  unfold wsHeaders
  split_ifs
  · exact nodup_keys_entriesSet _ _ _ h
  · exact h

theorem toUint32_cast (x : Int) : ((toUint32 x : Nat) : Int) = x % 4294967296 := by
  unfold toUint32
  omega


/-- C18: a websocket entry that passes the earlier checks and has a non-empty headers
mapping `H` gets websocket headers that bind every key `k` of `H` to `[H(k)]` and whose
keys are exactly those of `H` together with `Host`; when `H` has no key spelled `Host`,
`Host` is bound to the resolved TLS server name.  Path and early-data header name are those
of `ws-opts`. -/
theorem ws_headers_are_copied {ρ : Type} (GetTag : String → Bool) (p : ProxyTrojan ρ)
    (c : proxyClashTrojan) (ws : proxyClashTrojanWSOptions) (e : String × String)
    (l : List (String × String)) (hc : p.clashOptions = some c) (hflow : c.Flow = "")
    (hshow : c.FlowShow = false)
    (hfp : c.ClientFingerPrint = "" ∨ GetTag "with_utls" = true) (hn : c.Network = "ws")
    (hw : c.WSOptions = some ws) (hh : ws.Headers = some (e :: l))
    (hkeys : ((e :: l).map Prod.fst).Nodup) :
    ∃ o q tr hs, GenerateOptions GetTag p = .ok (.ok o, q) ∧
      o.TrojanOptions.Transport = some tr ∧ tr.Type_ = V2RayTransportTypeWebsocket ∧
      tr.WebsocketOptions.Headers = some hs ∧ (hs.map Prod.fst).Nodup ∧
      (∀ k v, List.lookup k (e :: l) = some v → List.lookup k hs = some [v]) ∧
      (∀ k, List.lookup k hs ≠ none ↔ (List.lookup k (e :: l) ≠ none ∨ k = "Host")) ∧
      (List.lookup "Host" (e :: l) = none →
        List.lookup "Host" hs = some [if c.ServerName = "" then c.Server else c.ServerName]) ∧
      tr.WebsocketOptions.Path = ws.Path ∧
      tr.WebsocketOptions.EarlyDataHeaderName = ws.EarlyDataHeaderName := by
  have hlk := fun k => lookup_wsHeaders k (e :: l) (tlsOf c).ServerName hkeys
  refine ⟨_, _, wsTransport ws (some (wsHeaders (e :: l) (tlsOf c).ServerName)), _,
    GenerateOptions_ws_ok GetTag p c ws e l hc hflow hshow hfp hn hw hh, ?_, rfl, rfl,
    nodup_keys_wsHeaders _ _, ?_, ?_, ?_, rfl, rfl⟩
  · rw [applyIPVersion_Transport]
    rfl
  · intro k v hk
    rw [hlk k, hk]
  · intro k
    rw [hlk k]
    cases hk : List.lookup k (e :: l) with
    | some v => simp
    | none =>
      by_cases hH : k = "Host"
      · simp [hH]
      · simp [hH]
  · intro hH
    rw [hlk "Host", hH]
    rfl

/-- Witness for C18: headers `host: x.com` and `User-Agent: ua` with `sni` "sni.example";
the lower-case key is copied and `Host` is added from the TLS server name. -/
theorem ws_headers_are_copied_witness :
    ∃ o q tr hs, GenerateOptions (fun _ => false) (fresh lowerHostOptions) = .ok (.ok o, q) ∧
      o.TrojanOptions.Transport = some tr ∧ tr.WebsocketOptions.Headers = some hs ∧
      List.lookup "host" hs = some ["x.com"] ∧ List.lookup "User-Agent" hs = some ["ua"] ∧
      List.lookup "Host" hs = some ["sni.example"] ∧ tr.WebsocketOptions.Path = "/ws" :=
  (ws_headers_are_copied (fun _ => false) (fresh lowerHostOptions) lowerHostOptions
    lowerHostWS ("host", "x.com") [("User-Agent", "ua")] rfl rfl rfl (Or.inl rfl) rfl rfl rfl
    (by decide)).elim fun o ho => ho.elim fun q hq => hq.elim fun tr htr => htr.elim
      fun hs h =>
        ⟨o, q, tr, hs, h.1, h.2.1, h.2.2.2.1, h.2.2.2.2.2.1 "host" "x.com" rfl,
          h.2.2.2.2.2.1 "User-Agent" "ua" rfl, h.2.2.2.2.2.2.2.1 rfl, h.2.2.2.2.2.2.2.2.1⟩

/-- C19: in every descriptor `GenerateOptions` returns, the part of the dialer policy
other than the domain strategy is that of the policy stored by `SetDialerOptions`; and
every returning call leaves the translator's stored dialer policy, domain strategy
included, and its raw options as they were. -/
theorem dialer_policy_is_framed {ρ : Type} (GetTag : String → Bool) (p : ProxyTrojan ρ)
    (c : proxyClashTrojan) (hc : p.clashOptions = some c) :
    (∀ (o : Outbound ρ) (q : ProxyTrojan ρ), GenerateOptions GetTag p = .ok (.ok o, q) →
      o.TrojanOptions.DialerOptions.Rest = p.dialerOptions.Rest) ∧
    (∀ (d : DialerOptions ρ) (o : Outbound ρ) (q : ProxyTrojan ρ),
      GenerateOptions GetTag (SetDialerOptions p d) = .ok (.ok o, q) →
      o.TrojanOptions.DialerOptions.Rest = d.Rest) ∧
    (∀ (r : Except String (Outbound ρ)) (q : ProxyTrojan ρ),
      GenerateOptions GetTag p = .ok (r, q) →
      q.dialerOptions = p.dialerOptions ∧ q.clashOptions = p.clashOptions) := by
  have hrest : ∀ (p' : ProxyTrojan ρ) (o : Outbound ρ) (q : ProxyTrojan ρ),
      p'.clashOptions = some c → GenerateOptions GetTag p' = .ok (.ok o, q) →
      o.TrojanOptions.DialerOptions.Rest = p'.dialerOptions.Rest := by
    intro p' o q hc' h
    rcases GenerateOptions_ok_cases GetTag p' q c o hc' h with
      ⟨-, ws, e, l, -, -, ho⟩ | ⟨-, -, g, -, ho⟩ | ⟨-, -, ho⟩ <;>
    · rw [ho, applyIPVersion_Rest]
      rfl
  refine ⟨fun o q h => hrest p o q hc h, fun d o q h => hrest (SetDialerOptions p d) o q hc h,
    ?_⟩
  intro r q h
  rcases GenerateOptions_state GetTag p q c r hc h with h1 | h1 <;>
  · rw [h1]
    exact ⟨rfl, rfl⟩

/-- Witness for C19: the entry asks for "ipv4" under an ambient prefer-IPv6 policy; the
descriptor forces IPv4 and keeps the rest, and the stored policy still prefers IPv6. -/
theorem dialer_policy_is_framed_witness :
    ∃ o q, GenerateOptions (fun _ => false) ipv4Translator = .ok (.ok o, q) ∧
      o.TrojanOptions.DialerOptions.DomainStrategy = .UseIPv4 ∧
      o.TrojanOptions.DialerOptions.Rest = "bind_interface=eth0" ∧
      q.dialerOptions = { DomainStrategy := .PreferIPv6, Rest := "bind_interface=eth0" } ∧
      q.clashOptions = ipv4Translator.clashOptions :=
  have h := dialer_policy_is_framed (fun _ => false) ipv4Translator
    { plainOptions with IPVersion := "ipv4" } rfl
  ⟨_, _, rfl, rfl, h.1 _ _ rfl, (h.2.2 _ _ rfl).1, (h.2.2 _ _ rfl).2⟩

/-- C20: the `max_early_data` of a returned websocket transport is the raw `ws-opts`
value reduced modulo 2^32; it equals the raw value exactly when that lies in
`[0, 2^32)`, and a raw value outside that range is not rejected: the entry still yields a
descriptor. -/
theorem max_early_data_wraps {ρ : Type} (GetTag : String → Bool) (p q : ProxyTrojan ρ)
    (c : proxyClashTrojan) (ws : proxyClashTrojanWSOptions) (o : Outbound ρ)
    (hc : p.clashOptions = some c) (hn : c.Network = "ws") (hw : c.WSOptions = some ws)
    (h : GenerateOptions GetTag p = .ok (.ok o, q)) :
    (∃ tr, o.TrojanOptions.Transport = some tr ∧
      ((tr.WebsocketOptions.MaxEarlyData : Nat) : Int) = ws.MaxEarlyData % 4294967296 ∧
      tr.WebsocketOptions.MaxEarlyData < 4294967296 ∧
      (((tr.WebsocketOptions.MaxEarlyData : Nat) : Int) = ws.MaxEarlyData ↔
        0 ≤ ws.MaxEarlyData ∧ ws.MaxEarlyData < 4294967296)) ∧
    ∀ m : Int, ∃ (o' : Outbound ρ) (q' : ProxyTrojan ρ) (tr' : V2RayTransportOptions),
      GenerateOptions GetTag (SetClashOptions p
          (.trojan { c with WSOptions := some { ws with MaxEarlyData := m } })).2 =
        .ok (.ok o', q') ∧
      o'.TrojanOptions.Transport = some tr' ∧
      ((tr'.WebsocketOptions.MaxEarlyData : Nat) : Int) = m % 4294967296 := by
  obtain ⟨hflow, hutls, -, -, -⟩ := GenerateOptions_ok_inv GetTag p q c o hc h
  rcases GenerateOptions_ok_cases GetTag p q c o hc h with
    ⟨-, ws', e, l, hw', hh, ho⟩ | ⟨hn', -⟩ | ⟨hn', -⟩
  · rw [hw] at hw'
    cases hw'
    constructor
    · refine ⟨wsTransport ws (some (wsHeaders (e :: l) (tlsOf c).ServerName)), ?_, ?_, ?_, ?_⟩
      · rw [ho, applyIPVersion_Transport]
        rfl
      · exact toUint32_cast ws.MaxEarlyData
      · have := toUint32_cast ws.MaxEarlyData
        simp only [wsTransport]
        omega
      · have := toUint32_cast ws.MaxEarlyData
        simp only [wsTransport]
        omega
    · intro m
      have hflow' : c.Flow = "" ∧ c.FlowShow = false := by
        simp only [ne_eq, not_or, not_not, Bool.not_eq_true] at hflow
        exact hflow
      have hfp : c.ClientFingerPrint = "" ∨ GetTag "with_utls" = true := by
        by_cases hx : c.ClientFingerPrint = ""
        · exact Or.inl hx
        · refine Or.inr ?_
          cases hg : GetTag "with_utls"
          · exact absurd ⟨hx, hg⟩ hutls
          · rfl
      have hok := GenerateOptions_ws_ok GetTag
        (SetClashOptions p
          (.trojan { c with WSOptions := some { ws with MaxEarlyData := m } })).2
        { c with WSOptions := some { ws with MaxEarlyData := m } }
        { ws with MaxEarlyData := m } e l rfl hflow'.1 hflow'.2 hfp hn rfl hh
      refine ⟨_, _, wsTransport { ws with MaxEarlyData := m }
        (some (wsHeaders (e :: l) (tlsOf c).ServerName)), hok, ?_, ?_⟩
      · rw [applyIPVersion_Transport]
        rfl
      · exact toUint32_cast m
  · exact absurd hn hn'
  · exact absurd hn hn'

/-- Witness for C20: a configured `max-early-data` of -1 becomes 4294967295. -/
theorem max_early_data_wraps_witness :
    ∃ o q tr, GenerateOptions (fun _ => false) (fresh lowerHostOptions) = .ok (.ok o, q) ∧
      o.TrojanOptions.Transport = some tr ∧
      ((tr.WebsocketOptions.MaxEarlyData : Nat) : Int) = (-1) % 4294967296 ∧
      tr.WebsocketOptions.MaxEarlyData = 4294967295 :=
  ((max_early_data_wraps (fun _ => false) (fresh lowerHostOptions) _ lowerHostOptions
    lowerHostWS _ rfl rfl rfl rfl).1).elim fun tr htr =>
      ⟨_, _, tr, rfl, htr.1, htr.2.1, by
        have h1 : ((tr.WebsocketOptions.MaxEarlyData : Nat) : Int) = (-1) % 4294967296 :=
          htr.2.1
        omega⟩

end TrojanProxy
